import Mathlib

/-!
Verification development for the Generational Agent Succession (GAS)
orchestrator.  The Python sources are shallowly embedded as Lean
definitions:

* `scripts/check-triggers.py`   → namespace `Triggers`
* `scripts/knowledge-store.py`  → namespace `Knowledge`
* `scripts/wave-manager.py` (with the generation-1 spawn step of
  `scripts/swarm-orchestrator.py`'s run loop) → namespace `Waves`
* `resources/dashboard/server/output_parser.py` → namespace `OutParse`
* `resources/dashboard/server/file_tracker.py`  → namespace `Tracker`
* `resources/dashboard/server/gas_status.py`    → namespace `GasStatus`

Modelling conventions, used throughout:
* Python `float` values (confidences, scores, mtimes, epoch seconds)
  are modelled as exact rationals `ℚ`; the embedded arithmetic uses
  only operations the sources use (`+ - * / min max` and comparisons),
  on which `ℚ` agrees with real arithmetic.
* Wall-clock reads (`datetime.utcnow`, `timestamp()`) are passed in as
  an explicit `now` argument.
* Python strings are modelled as `String`, manipulated through their
  character lists; `str.lower` is modelled for ASCII text (the only
  text the repository stores), and the `in` substring test is modelled
  by `containsSub` below.
* Python dicts with fixed key sets become structures; JSON-decoded
  dicts of unknown shape become the `OutParse.Json` inductive; dicts
  used as ordered maps become association lists, which preserve the
  insertion order Python 3.7+ dicts guarantee.
-/

/-- Python `str.lower()` for ASCII strings, character by character. -/
def lowerStr (s : String) : String := String.mk (s.data.map Char.toLower)

/-- Python's `needle in haystack` substring test on character lists. -/
def containsSub : List Char → List Char → Bool
  | n, h =>
    if n.isPrefixOf h then true
    else
      match h with
      | [] => false
      | _ :: t => containsSub n t

/-- Python `s[:n]` slicing (by characters) modelled on `String`. -/
def strTake (s : String) (n : ℕ) : String := String.mk (s.data.take n)

/-- Python `s.count(c)` for a single character. -/
def countChar (s : String) (c : Char) : ℕ := (s.data.filter (· = c)).length

/-- Python `s.drop` used to model `f.seek(pos); f.read()` on ASCII text. -/
def strDrop (s : String) (n : ℕ) : String := String.mk (s.data.drop n)

namespace Triggers

/-!
`scripts/check-triggers.py`.  `WEIGHTS = {interactions: 0.25,
confidence: 0.30, errors: 0.25, stall: 0.20}`, `THRESHOLDS =
{interaction_limit: 150, confidence_min: 0.70, error_rate_max: 0.15,
stall_minutes: 10}`.
-/

/-- One generation's `status.json` as read by `evaluate_triggers`.
`interactions`/`errors` are the JSON counters (defaulted to 0 when
missing), `confidence` the float (defaulted to 1.0), and
`elapsed_minutes` models `(now - last_updated).total_seconds() / 60`
for a present, parseable `last_updated` (`none` models a missing or
unparseable timestamp, for which the source leaves the stall score 0). -/
structure GenStatus where
  interactions : ℕ := 0
  confidence : ℚ := 1
  errors : ℕ := 0
  elapsed_minutes : Option ℚ := none

/-- Result tuple of `evaluate_triggers` together with the per-factor
scores (the source's `scores` dict, in its insertion order
interactions, confidence, errors, stall). -/
structure TriggerResult where
  should_handoff : Bool
  urgency : String
  primary_trigger : String
  score_interactions : ℚ
  score_confidence : ℚ
  score_errors : ℚ
  score_stall : ℚ
  weighted_score : ℚ
deriving DecidableEq

/-- `max(scores, key=scores.get)`: Python's `max` keeps the first
maximal element of the iteration order, so a later entry replaces the
current best only when strictly greater. -/
def firstArgmax (hd : String × ℚ) (tl : List (String × ℚ)) : String :=
  (tl.foldl (fun best x => if x.2 > best.2 then x else best) hd).1

/-- `evaluate_triggers(status)` from `scripts/check-triggers.py`. -/
def evaluate_triggers (status : GenStatus) : TriggerResult :=
  let si : ℚ := min ((status.interactions : ℚ) / 150) 1
  let sc : ℚ := max 0 (1 - status.confidence / (7/10))
  let se : ℚ := min (((status.errors : ℚ) / (max status.interactions 1 : ℕ)) / (15/100)) 1
  let ss : ℚ :=
    match status.elapsed_minutes with
    | none => 0
    | some m => min (m / 10) 1
  let w : ℚ := si * (25/100) + sc * (30/100) + se * (25/100) + ss * (20/100)
  let urgency : String := if w > 7/10 then "immediate" else if w > 5/10 then "soon" else "none"
  let handoff : Bool := decide (w > 5/10)
  let primary := firstArgmax ("interactions", si)
    [("confidence", sc), ("errors", se), ("stall", ss)]
  { should_handoff := handoff, urgency := urgency, primary_trigger := primary,
    score_interactions := si, score_confidence := sc, score_errors := se,
    score_stall := ss, weighted_score := w }

end Triggers

namespace Knowledge

/-!
`scripts/knowledge-store.py`.  `DEFAULT_CONFIG`: caps 50/25/100,
default confidence 0.75, decay rate 0.10, promotion threshold 3.
-/

/-- One stored pattern entry.  `evidence`/`impact`/`category` are the
kind-specific fields `add_pattern` attaches; absent keys are `none`.
Timestamps (`added_at`, `last_seen`) are modelled as the `now` value in
effect when they were written.  `source_generation` keeps the JSON
value (`none` models Python `None`). -/
structure KEntry where
  id : String
  context : String
  pattern : String
  confidence : ℚ
  added_at : ℕ
  last_seen : ℕ
  occurrences : ℕ
  source_generation : Option ℤ := none
  source_agent : Option String := none
  evidence : Option String := none
  impact : Option String := none
  category : Option String := none
deriving DecidableEq

/-- The three `--type` values accepted by the CLI. -/
inductive PatternType where
  | success_pattern
  | anti_pattern
  | domain_knowledge
deriving DecidableEq

/-- The persistent store (the three bounded lists; `created` and
`generations_completed` are irrelevant to every operation modelled
here and omitted). -/
structure KnowledgeStore where
  success_patterns : List KEntry := []
  anti_patterns : List KEntry := []
  domain_knowledge : List KEntry := []
  last_updated : ℕ := 0
deriving DecidableEq

/-- `generate_id(content) = md5(content)[:8]`.  No claim depends on the
hash value, only on the id being a deterministic function of
`context:pattern`; the MD5 digest (a stdlib call) is modelled by the
content itself. -/
def generate_id (content : String) : String := content

/-- The similarity test of `find_similar_pattern`:
`existing == pattern_lower or existing in pattern_lower or
pattern_lower in existing`, both sides already lowercased. -/
def similar (existing pattern_lower : String) : Bool :=
  existing == pattern_lower
    || containsSub existing.data pattern_lower.data
    || containsSub pattern_lower.data existing.data

/-- `find_similar_pattern(store, pattern_type, pattern)`: the first
entry of the target list whose lowercased pattern is
substring-equivalent to the lowercased probe. -/
def find_similar_pattern (l : List KEntry) (pattern : String) : Option KEntry :=
  l.find? fun p => similar (lowerStr p.pattern) (lowerStr pattern)

/-- The in-place update `add_pattern` performs on a found duplicate:
`occurrences += 1`, `last_seen = timestamp()`, and once
`occurrences >= 3` (promotion threshold) `confidence =
min(1.0, confidence + 0.05)`. -/
def bump (now : ℕ) (e : KEntry) : KEntry :=
  let occ := e.occurrences + 1
  let e' := { e with occurrences := occ, last_seen := now }
  if occ ≥ 3 then { e' with confidence := min 1 (e'.confidence + 5/100) } else e'

/-- `add_pattern`'s duplicate branch acting on the stored list: the
mutation through the alias returned by `find_similar_pattern` updates
the first similar entry in place. -/
def update_first_similar (now : ℕ) (pattern_lower : String) :
    List KEntry → Option (List KEntry)
  | [] => none
  | p :: rest =>
    if similar (lowerStr p.pattern) pattern_lower then some (bump now p :: rest)
    else (update_first_similar now pattern_lower rest).map (p :: ·)

/-- Stable descending insertion by confidence: the new element goes
before every strictly smaller confidence and after all `≥` ones, so
earlier list elements with equal confidence stay first. -/
def insertByConfidence (e : KEntry) : List KEntry → List KEntry
  | [] => [e]
  | x :: xs =>
    if x.confidence < e.confidence then e :: x :: xs else x :: insertByConfidence e xs

/-- Stable sort by confidence, descending.  Python's
`sorted(patterns, key=..., reverse=True)` is a stable descending sort,
and a stable sort's output is uniquely determined, so this insertion
sort computes exactly `prune_by_confidence`'s `sorted_patterns`. -/
def sortByConfidence (l : List KEntry) : List KEntry :=
  l.foldr insertByConfidence []

/-- `prune_by_confidence(patterns, max_count)`. -/
def prune_by_confidence (l : List KEntry) (max_count : ℕ) : List KEntry :=
  (sortByConfidence l).take max_count

/-- The keyword arguments of `add_pattern` (a `confidence` of `none`
models Python `None`, replaced by the configured default 0.75). -/
structure AddArgs where
  ptype : PatternType
  context : String
  pattern : String
  confidence : Option ℚ := none
  source_gen : Option ℤ := none
  source_agent : Option String := none
  evidence : Option String := none
  impact : Option String := none

/-- The fresh entry `add_pattern` constructs before the kind-specific
field is attached. -/
def mkEntry (a : AddArgs) (now : ℕ) : KEntry :=
  { id := generate_id (a.context ++ ":" ++ a.pattern)
    context := a.context
    pattern := a.pattern
    confidence := a.confidence.getD (75/100)
    added_at := now
    last_seen := now
    occurrences := 1
    source_generation := a.source_gen
    source_agent := a.source_agent }

/-- Append a fresh entry to one list and enforce its cap, exactly as
each kind branch of `add_pattern` does:
`if len(list) > cap: list = prune_by_confidence(list, cap)`. -/
def appendCapped (l : List KEntry) (e : KEntry) (cap : ℕ) : List KEntry :=
  let l' := l ++ [e]
  if l'.length > cap then prune_by_confidence l' cap else l'

/-- `add_pattern(store, pattern_type, context, pattern, ...)`. -/
def add_pattern (s : KnowledgeStore) (a : AddArgs) (now : ℕ) : KnowledgeStore :=
  match a.ptype with
  | .success_pattern =>
    match update_first_similar now (lowerStr a.pattern) s.success_patterns with
    | some l' => { s with success_patterns := l', last_updated := now }
    | none =>
      let e := { mkEntry a now with evidence := some (a.evidence.getD "Observed to work well") }
      { s with success_patterns := appendCapped s.success_patterns e 50, last_updated := now }
  | .anti_pattern =>
    match update_first_similar now (lowerStr a.pattern) s.anti_patterns with
    | some l' => { s with anti_patterns := l', last_updated := now }
    | none =>
      let e := { mkEntry a now with impact := some (a.impact.getD "Caused issues") }
      { s with anti_patterns := appendCapped s.anti_patterns e 25, last_updated := now }
  | .domain_knowledge =>
    match update_first_similar now (lowerStr a.pattern) s.domain_knowledge with
    | some l' => { s with domain_knowledge := l', last_updated := now }
    | none =>
      let e := { mkEntry a now with category := some a.context }
      { s with domain_knowledge := appendCapped s.domain_knowledge e 100, last_updated := now }

/-- `decay_unused_patterns`'s per-entry step: with
`source_gen = p.get("source_generation", 0)` (so `None` ↦ 0), decay
when `source_gen` is truthy (≠ 0), `current_generation - source_gen > 2`
and `occurrences <= 1`: `confidence = max(0.1, confidence - 0.10)`. -/
def decay_entry (current_generation : ℤ) (p : KEntry) : KEntry :=
  let source_gen : ℤ := p.source_generation.getD 0
  if source_gen ≠ 0 ∧ current_generation - source_gen > 2 ∧ p.occurrences ≤ 1 then
    { p with confidence := max (1/10) (p.confidence - 1/10) }
  else p

/-- `decay_unused_patterns(store, current_generation)`: applied to the
success and anti lists only (the returned `affected` counts are not
modelled; they do not alter the store). -/
def decay_unused_patterns (s : KnowledgeStore) (current_generation : ℤ) (now : ℕ) :
    KnowledgeStore :=
  { s with
    success_patterns := s.success_patterns.map (decay_entry current_generation)
    anti_patterns := s.anti_patterns.map (decay_entry current_generation)
    last_updated := now }

/-- The list `add_pattern` targets for a pattern type. -/
def targetList (s : KnowledgeStore) : PatternType → List KEntry
  | .success_pattern => s.success_patterns
  | .anti_pattern => s.anti_patterns
  | .domain_knowledge => s.domain_knowledge

/-- The configured hard cap for a pattern type. -/
def capOf : PatternType → ℕ
  | .success_pattern => 50
  | .anti_pattern => 25
  | .domain_knowledge => 100

/-- The full fresh entry `add_pattern` inserts (base entry plus the
kind-specific field). -/
def newEntry (a : AddArgs) (now : ℕ) : KEntry :=
  match a.ptype with
  | .success_pattern => { mkEntry a now with evidence := some (a.evidence.getD "Observed to work well") }
  | .anti_pattern => { mkEntry a now with impact := some (a.impact.getD "Caused issues") }
  | .domain_knowledge => { mkEntry a now with category := some a.context }

/-- The hard caps of `DEFAULT_CONFIG`, as an invariant on a store. -/
def capsOk (s : KnowledgeStore) : Prop :=
  s.success_patterns.length ≤ 50 ∧ s.anti_patterns.length ≤ 25 ∧
    s.domain_knowledge.length ≤ 100

instance (s : KnowledgeStore) : Decidable (capsOk s) := by
  unfold capsOk; infer_instance

/-- Fold a sequence of `add` calls, times ticking 1, 2, 3, …
(the concrete `now` values never influence control flow). -/
def applyAdds (s : KnowledgeStore) (l : List AddArgs) : KnowledgeStore :=
  (l.foldl (fun (p : KnowledgeStore × ℕ) a => (add_pattern p.1 a p.2, p.2 + 1)) (s, 1)).1

end Knowledge

namespace Waves

/-!
`scripts/wave-manager.py` (`can_advance_wave`, `advance_wave`,
`spawn_wave_agents`).  The `gas-state.json` file is embedded as
`SwarmState`; JSON object keys that hold wave numbers are modelled as
the numbers themselves.  Writing a generation's fresh `status.json` on
spawn is recorded in the `spawned` journal field (the file's content —
generation 1, status `running`, zeroed counters — is fixed by the
source and carries no further state).
-/

/-- One entry of the state's `agents` registry (the fields the wave
manager touches). -/
structure Agent where
  status : String := "pending"
  current_generation : ℕ := 0
deriving DecidableEq

/-- One entry of the state's `waves` mapping. -/
structure Wave where
  status : String := "pending"
  started_at : Option ℕ := none
  completed_at : Option ℕ := none
  agents : List String := []
deriving DecidableEq

/-- The swarm-mode `gas-state.json`, restricted to the fields
`can_advance_wave` / `advance_wave` / `spawn_wave_agents` read or
write.  `spawned` journals each `status.json` written for a freshly
spawned generation as an `(agent_id, generation)` pair. -/
structure SwarmState where
  current_wave : ℕ := 1
  total_waves : ℕ := 1
  waves : List (ℕ × Wave) := []
  agents : List (String × Agent) := []
  spawned : List (String × ℕ) := []
deriving DecidableEq

/-- Replace the value stored under a key of an association list (a
Python dict holds each key once, so replacing every occurrence is the
faithful model of `d[k] = v` for a present key). -/
def setKey {β : Type} (l : List (String × β)) (k : String) (v : β) : List (String × β) :=
  l.map fun kv => if kv.1 = k then (kv.1, v) else kv

/-- Same, for the `ℕ`-keyed waves map. -/
def setWave (l : List (ℕ × Wave)) (k : ℕ) (v : Wave) : List (ℕ × Wave) :=
  l.map fun kv => if kv.1 = k then (kv.1, v) else kv

/-- `can_advance_wave`: `current < total` and no agent of the current
wave has a status outside `["completed", "succeeded"]` (a missing
agent record reads as status `None`, hence incomplete). -/
def can_advance_wave (s : SwarmState) : Bool :=
  if s.current_wave ≥ s.total_waves then false
  else
    let wave_agents := ((s.waves.lookup s.current_wave).getD ({} : Wave)).agents
    wave_agents.all fun aid =>
      match s.agents.lookup aid with
      | some a => a.status = "completed" || a.status = "succeeded"
      | none => false

/-- `advance_wave(gas_dir)`: on a positive `can_advance_wave` check,
set `current_wave += 1`, mark the new wave `running` with
`started_at = timestamp()` (when its key exists), mark the old wave
`completed` with `completed_at = timestamp()` (when its key exists),
and persist; otherwise leave the state untouched and return `False`. -/
def advance_wave (s : SwarmState) (now : ℕ) : SwarmState × Bool :=
  if ¬ can_advance_wave s then (s, false)
  else
    let current := s.current_wave
    let s := { s with current_wave := current + 1 }
    let s :=
      match s.waves.lookup (current + 1) with
      | some w =>
        let w' := { w with status := "running", started_at := some now }
        { s with waves := setWave s.waves (current + 1) w' }
      | none => s
    let s :=
      match s.waves.lookup current with
      | some w =>
        let w' := { w with status := "completed", completed_at := some now }
        { s with waves := setWave s.waves current w' }
      | none => s
    (s, true)

/-- The body of `spawn_wave_agents`' loop for one agent id: when the
agent's `current_generation` (default 0) is 0, write the generation-1
`status.json` (journalled in `spawned`) and set the agent's registry
record to `status = "running"`, `current_generation = 1`.  For an id
absent from the registry the source mutates a fresh orphan dict, so
the file is written but the registry is unchanged. -/
def spawnStep (st : SwarmState) (aid : String) : SwarmState :=
  match st.agents.lookup aid with
  | some a =>
    if a.current_generation = 0 then
      { st with
        spawned := st.spawned ++ [(aid, 1)]
        agents := setKey st.agents aid { a with status := "running", current_generation := 1 } }
    else st
  | none => { st with spawned := st.spawned ++ [(aid, 1)] }

/-- `spawn_wave_agents(gas_dir, wave)`: spawn generation 1 for every
agent of the wave that is still at generation 0. -/
def spawn_wave_agents (s : SwarmState) (wave : ℕ) : SwarmState :=
  (((s.waves.lookup wave).getD ({} : Wave)).agents).foldl spawnStep s

/-- The spec's `advance()` (§4.9): `advance_wave` followed, on
success, by the generation-1 spawn step the orchestrator's run loop
(`swarm-orchestrator.py`, `run_swarm`) performs for the agents of the
newly current wave. -/
def advance (s : SwarmState) (now : ℕ) : SwarmState × Bool :=
  let (s', ok) := advance_wave s now
  if ok then (spawn_wave_agents s' s'.current_wave, true) else (s', false)

end Waves

namespace OutParse

/-!
`resources/dashboard/server/output_parser.py`.  NDJSON lines are
decoded by the stdlib `json.loads`; the embedding starts from the
decoded values, modelled by the `Json` inductive below.  The worker
contract (§6 of the spec) makes event field values of interest
strings, lists and objects; numbers model timestamps as rational
epoch seconds.  The live-feed ring (`live_events`,
`format_event_for_display`) and the `raw_lines_count` counter are the
only parts of the parser not embedded: no tracked property mentions
them and they feed back into no other field.
-/

/-- A decoded JSON value (the result of `json.loads` on one line). -/
inductive Json where
  | null : Json
  | bool : Bool → Json
  | num : ℚ → Json
  | str : String → Json
  | arr : List Json → Json
  | obj : List (String × Json) → Json

/-- Python `event.get(key)` (`none` models both a missing key and the
receiver not being a dict). -/
def Json.get : Json → String → Option Json
  | .obj kvs, k => kvs.lookup k
  | _, _ => none

/-- Python truthiness of a decoded JSON value. -/
def Json.truthy : Json → Bool
  | .null => false
  | .bool b => b
  | .num q => decide (q ≠ 0)
  | .str s => s != ""
  | .arr l => !l.isEmpty
  | .obj l => !l.isEmpty

/-- The value when it is a string. -/
def Json.asStr? : Json → Option String
  | .str s => some s
  | _ => none

/-- Python `x or y` over two `dict.get` results (`none` = `None`). -/
def pyOr2 (x y : Option Json) : Option Json :=
  match x with
  | some v => if v.truthy then some v else y
  | none => y

/-- `event.get('name', 'unknown')`, read as a tool name.  Per the
worker contract tool names are strings; a present non-string value is
outside the modelled input space and reads as `"unknown"`. -/
def jname (e : Json) : String :=
  match e.get "name" with
  | some (.str s) => s
  | _ => "unknown"

/-- The scan over an assistant-content list: every dict item with
`type == "tool_use"` contributes `(name, input)`. -/
def toolUsesOf (items : List Json) : List (String × Option Json) :=
  items.filterMap fun item =>
    match item.get "type" with
    | some (.str "tool_use") => some (jname item, item.get "input")
    | _ => none

/-- `extract_all_tools_from_event(event)`: a direct `tool_use` event
contributes itself; an `assistant` event contributes every `tool_use`
item of its `content` list and of its nested `message.content` list. -/
def extract_all_tools_from_event (event : Json) : List (String × Option Json) :=
  match event.get "type" with
  | some (.str "tool_use") => [(jname event, event.get "input")]
  | some (.str "assistant") =>
    let fromContent :=
      match event.get "content" with
      | some (.arr l) => toolUsesOf l
      | _ => []
    let fromMessage :=
      match event.get "message" with
      | some msg =>
        match msg.get "content" with
        | some (.arr l) => toolUsesOf l
        | _ => []
      | none => []
    fromContent ++ fromMessage
  | _ => []

/-- Is this item a dict with `type == "tool_use"`? -/
def isToolUse (item : Json) : Bool :=
  match item.get "type" with
  | some (.str s) => s == "tool_use"
  | _ => false

/-- Does the event's `type` value equal the string `"assistant"`? -/
def typeIsAssistant (e : Json) : Bool :=
  match e.get "type" with
  | some (.str s) => s == "assistant"
  | _ => false

/-- `extract_tool_name(event)`, the single-tool fallback.  Its only
recursion descends into the `message` value, so a structural fuel
bounded by the term size makes it total; `extract_tool_name` below
instantiates the fuel with `sizeOf`, which every decoded value
exceeds in depth.  A returned Python value that is not a string is
outside the modelled space and reads as `none` (callers use the
result as a tool name under a truthiness guard). -/
def extract_tool_nameF : ℕ → Json → Option String
  | 0, _ => none
  | fuel + 1, e =>
    -- the final `message` stage: scan `message.content` for a
    -- `tool_use` item, else recurse into the message dict
    let msgStage : Option String :=
      match e.get "message" with
      | some msg =>
        match msg with
        | .obj _ =>
          match msg.get "content" with
          | some (.arr items) =>
            match items.find? isToolUse with
            | some it => (it.get "name").bind Json.asStr?
            | none => extract_tool_nameF fuel msg
          | _ => extract_tool_nameF fuel msg
        | _ => none
      | none => none
    -- `if 'type' in event:` with its two early returns
    let stage1 : Option (Option String) :=
      match e.get "type" with
      | some (.str "tool_use") => some ((pyOr2 (e.get "name") (e.get "tool")).bind Json.asStr?)
      | some (.str "assistant") =>
        match e.get "content" with
        | some (.arr items) =>
          match items.find? isToolUse with
          | some it => some ((it.get "name").bind Json.asStr?)
          | none => none
        | _ => none
      | _ => none
    match stage1 with
    | some r => r
    | none =>
      -- `if 'tool' in event: return event['tool']`
      match e.get "tool" with
      | some v => v.asStr?
      | none =>
        -- `if 'name' in event and event.get('type') != 'assistant':`
        match e.get "name" with
        | some v =>
          if ¬ typeIsAssistant e then v.asStr?
          else msgStage
        | none => msgStage

mutual

/-- The nesting depth of a decoded value. -/
def Json.depth : Json → ℕ
  | .arr vs => 1 + depthItems vs
  | .obj kvs => 1 + depthFields kvs
  | _ => 1

/-- Depth of the deepest element of a list of values. -/
def depthItems : List Json → ℕ
  | [] => 0
  | v :: rest => max (Json.depth v) (depthItems rest)

/-- Depth of the deepest value of a field list. -/
def depthFields : List (String × Json) → ℕ
  | [] => 0
  | kv :: rest => max (Json.depth kv.2) (depthFields rest)

end

/-- `extract_tool_name(event)`.  The fuel `e.depth` strictly exceeds
the depth of every nested `message` value, so the fuelled function
never bottoms out on it and agrees with the source's unbounded
recursion. -/
def extract_tool_name (e : Json) : Option String :=
  extract_tool_nameF e.depth e

/-- `extract_file_path(event)` (used only by the single-tool
fallback): for a dict-valued `input`, `input.get('file_path') or
input.get('path')`; the second branch — a regular-expression search
for a path-like token inside prose `content` — is outside every
tracked property and is modelled as finding nothing. -/
def extract_file_path (e : Json) : Option String :=
  match e.get "input" with
  | some (.obj kvs) => (pyOr2 ((Json.obj kvs).get "file_path") ((Json.obj kvs).get "path")).bind Json.asStr?
  | _ => none

/-- A JSON string literal with the escapes the embedded texts need
(`"` and `\`; the repository's marker and event texts contain no
control characters or non-ASCII text). -/
def jsonQuote (s : String) : String :=
  "\"" ++ String.mk (s.data.flatMap fun c => if c = '"' ∨ c = '\\' then ['\\', c] else [c]) ++ "\""

/-- A number as `json.dumps` would print an integer (fractional
values never occur in the repository's marker checks). -/
def numRepr (q : ℚ) : String :=
  if q.den = 1 then toString q.num else toString q.num ++ "/" ++ toString q.den

mutual

/-- `json.dumps(event)` with Python's default separators
`", "` and `": "`. -/
def jsonDumps : Json → String
  | .null => "null"
  | .bool b => if b then "true" else "false"
  | .num q => numRepr q
  | .str s => jsonQuote s
  | .arr vs => "[" ++ dumpsItems vs ++ "]"
  | .obj kvs => "\x7b" ++ dumpsFields kvs ++ "\x7d"

/-- Comma-joined array elements. -/
def dumpsItems : List Json → String
  | [] => ""
  | [v] => jsonDumps v
  | v :: rest => jsonDumps v ++ ", " ++ dumpsItems rest

/-- Comma-joined `"key": value` pairs. -/
def dumpsFields : List (String × Json) → String
  | [] => ""
  | [kv] => jsonQuote kv.1 ++ ": " ++ jsonDumps kv.2
  | kv :: rest => jsonQuote kv.1 ++ ": " ++ jsonDumps kv.2 ++ ", " ++ dumpsFields rest

end

mutual

/-- Python `str(event)` (dict repr: single-quoted strings,
capitalised literals), used only as the last-resort error message. -/
def pyRepr : Json → String
  | .null => "None"
  | .bool b => if b then "True" else "False"
  | .num q => numRepr q
  | .str s => "\x27" ++ s ++ "\x27"
  | .arr vs => "[" ++ reprItems vs ++ "]"
  | .obj kvs => "\x7b" ++ reprFields kvs ++ "\x7d"

/-- Comma-joined repr of list elements. -/
def reprItems : List Json → String
  | [] => ""
  | [v] => pyRepr v
  | v :: rest => pyRepr v ++ ", " ++ reprItems rest

/-- Comma-joined repr of dict items. -/
def reprFields : List (String × Json) → String
  | [] => ""
  | [kv] => "\x27" ++ kv.1 ++ "\x27: " ++ pyRepr kv.2
  | kv :: rest => "\x27" ++ kv.1 ++ "\x27: " ++ pyRepr kv.2 ++ ", " ++ reprFields rest

end

/-- `config.COMPLETION_MARKERS`. -/
def COMPLETION_MARKERS : List String :=
  ["EVOLUTION COMPLETE", "Task completed", "All tasks completed",
   "status\": \"completed\"", "Successfully completed", "Finished all",
   "COMPLETED", "Done!", "Generation complete", "Agent complete",
   "Complete.", "Finished.", "Mission accomplished", "Operation complete",
   "Process complete", "Execution finished"]

/-- `check_completion_markers(text)`: case-insensitive substring test
against each configured marker. -/
def check_completion_markers (text : String) : Bool :=
  COMPLETION_MARKERS.any fun marker =>
    containsSub (lowerStr marker).data (lowerStr text).data

/-- The aggregate `ParsedOutput` (without the live-feed ring and raw
line counter, see the namespace header). -/
structure ParsedOutput where
  total_events : ℕ := 0
  tools_used : List (String × ℕ) := []
  files_created : List String := []
  files_modified : List String := []
  last_activity : Option ℚ := none
  has_completion_marker : Bool := false
  progress_estimate : ℕ := 0
  current_task : String := ""
  errors : List String := []
  assistant_messages : ℕ := 0
  tool_results : ℕ := 0
deriving DecidableEq

/-- `tools_used[name] = tools_used.get(name, 0) + 1` on the
insertion-ordered counter dict. -/
def bumpCount : List (String × ℕ) → String → List (String × ℕ)
  | [], n => [(n, 1)]
  | (k, c) :: rest, n => if k = n then (k, c + 1) :: rest else (k, c) :: bumpCount rest n

/-- The `in_progress` todo's description:
`todo.get('activeForm', todo.get('content', ''))` (a present
non-string value is outside the modelled input space). -/
def taskText (td : Json) : String :=
  match td.get "activeForm" with
  | some (.str s) => s
  | some _ => ""
  | none =>
    match td.get "content" with
    | some (.str s) => s
    | _ => ""

/-- The `TodoWrite` step: record the first todo whose
`status == "in_progress"` as `current_task`. -/
def todoStep (r : ParsedOutput) (inp : Json) : ParsedOutput :=
  let todos : List Json :=
    match inp.get "todos" with
    | some (.arr l) => l
    | _ => []
  match todos.find? (fun td =>
      match td.get "status" with
      | some (.str s) => s == "in_progress"
      | _ => false) with
  | some td => { r with current_task := taskText td }
  | none => r

/-- The `file_path or notebook_path` extraction of the per-tool loop
(`input_data.get('file_path') or input_data.get('notebook_path')`,
kept only when truthy). -/
def fileFromInput (inp : Json) : Option String :=
  match inp with
  | .obj _ =>
    match pyOr2 (inp.get "file_path") (inp.get "notebook_path") with
    | some v => if v.truthy then v.asStr? else none
    | none => none
  | _ => none

/-- The body of `parse_output_content`'s per-tool loop for one
`(tool_name, input_data)` pair: count the tool, record `Write`/`Edit`
file operations (`NotebookEdit` extracts a path but the source
appends it nowhere), and track the `TodoWrite` current task. -/
def processTool (r : ParsedOutput) (name : String) (input : Option Json) : ParsedOutput :=
  let r := { r with tools_used := bumpCount r.tools_used name }
  let inputTruthy := match input with | some v => v.truthy | none => false
  let r :=
    if (name == "Write" || name == "Edit" || name == "NotebookEdit") && inputTruthy then
      match input.bind fileFromInput with
      | some fp =>
        if name = "Write" ∧ fp ∉ r.files_created then
          { r with files_created := r.files_created ++ [fp] }
        else if name = "Edit" ∧ fp ∉ r.files_modified then
          { r with files_modified := r.files_modified ++ [fp] }
        else r
      | none => r
    else r
  if name == "TodoWrite" && inputTruthy then
    match input with
    | some inp => todoStep r inp
    | none => r
  else r

/-- The error branch: for an event with `type == "error"` or a truthy
`is_error`, take `event.get('message', event.get('content',
str(event)))` and append it to `errors` when it is a string shorter
than 200 characters (the source guards with `len(error_msg) < 200`
before the `[:200]` slice, so longer messages are dropped, not
truncated). -/
def errStep (r : ParsedOutput) (event : Json) : ParsedOutput :=
  let isErr :=
    (match event.get "type" with
     | some (.str s) => s == "error"
     | _ => false)
    || (match event.get "is_error" with
        | some v => v.truthy
        | none => false)
  if isErr then
    let msg : Json :=
      match event.get "message" with
      | some v => v
      | none =>
        match event.get "content" with
        | some v => v
        | none => .str (pyRepr event)
    match msg with
    | .str s => if s.length < 200 then { r with errors := r.errors ++ [strTake s 200] } else r
    | _ => r
  else r

/-- The timestamp step: a numeric `timestamp` advances
`last_activity` when strictly newer (ISO-8601 strings are modelled as
their epoch value; an unparseable timestamp is any non-numeric value
and is ignored, as the source's `except` clause does). -/
def tsStep (r : ParsedOutput) (event : Json) : ParsedOutput :=
  match event.get "timestamp" with
  | some (.num t) =>
    match r.last_activity with
    | none => { r with last_activity := some t }
    | some cur => if t > cur then { r with last_activity := some t } else r
  | _ => r

/-- The `event.get('type')` counters (`assistant` / `tool_result`). -/
def typeCountStep (r : ParsedOutput) (event : Json) : ParsedOutput :=
  match event.get "type" with
  | some (.str "assistant") => { r with assistant_messages := r.assistant_messages + 1 }
  | some (.str "tool_result") => { r with tool_results := r.tool_results + 1 }
  | _ => r

/-- The single-tool fallback taken when `extract_all_tools_from_event`
found nothing: `extract_tool_name` plus the `Write`/`Edit` file-path
bookkeeping. -/
def fallbackStep (r : ParsedOutput) (event : Json) : ParsedOutput :=
  match extract_tool_name event with
  | some name =>
    if name ≠ "" then
      let r := { r with tools_used := bumpCount r.tools_used name }
      if name = "Write" ∨ name = "Edit" ∨ name = "NotebookEdit" then
        match extract_file_path event with
        | some fp =>
          if fp ≠ "" then
            if name = "Write" ∧ fp ∉ r.files_created then
              { r with files_created := r.files_created ++ [fp] }
            else if name = "Edit" ∧ fp ∉ r.files_modified then
              { r with files_modified := r.files_modified ++ [fp] }
            else r
          else r
        | none => r
      else r
    else r
  | none => r

/-- The completion-marker test on the serialized event. -/
def markerStep (r : ParsedOutput) (event : Json) : ParsedOutput :=
  if check_completion_markers (jsonDumps event) then
    { r with has_completion_marker := true }
  else r

/-- The part of `parse_output_content`'s loop body that precedes the
error check: event counting, the timestamp update, type counters,
tool extraction (bulk and single-tool fallback) and the completion
marker test. -/
def processEventCore (r : ParsedOutput) (event : Json) : ParsedOutput :=
  let r := { r with total_events := r.total_events + 1 }
  let r := tsStep r event
  let r := typeCountStep r event
  let tools := extract_all_tools_from_event event
  let r := tools.foldl (fun r nt => processTool r nt.1 nt.2) r
  let r := if tools.isEmpty then fallbackStep r event else r
  markerStep r event

/-- One iteration of `parse_output_content`'s line loop on a decoded
event (a falsy decoded value is skipped by `if not event`): the core
steps above followed by the error check. -/
def processEvent (r : ParsedOutput) (event : Json) : ParsedOutput :=
  if ¬ event.truthy then r
  else errStep (processEventCore r event) event

/-- `estimate_progress(parsed)`. -/
def estimate_progress (p : ParsedOutput) : ℕ :=
  if p.has_completion_marker then 100
  else
    let total_tools := (p.tools_used.map (·.2)).sum
    let progress := min 60 (total_tools * 3)
    let progress := progress + min 20 (p.files_created.length * 5)
    let progress := progress + min 10 (p.files_modified.length * 2)
    let progress := progress + (if p.current_task ≠ "" then 5 else 0)
    min 95 progress

/-- `parse_output_content(content, existing_parsed)` over the decoded
lines of the content (the `json.loads` decoding itself is a stdlib
call; empty and malformed lines decode to nothing and are dropped
before this function's loop, matching `parse_ndjson_line`). -/
def parse_output_content (events : List Json) (existing : Option ParsedOutput) : ParsedOutput :=
  let r := events.foldl processEvent (existing.getD {})
  { r with progress_estimate := estimate_progress r }

end OutParse

namespace Tracker

/-!
`resources/dashboard/server/file_tracker.py`,
`FilePositionTracker.get_new_content`.  The tracker's per-path state
and transition are embedded for one path (entries for distinct paths
never interact in `get_new_content`; the capacity eviction of
`_ensure_capacity` only removes whole entries of other paths and is
outside every tracked property).  File content is modelled at byte
granularity as ASCII text, so `st_size`, `f.seek`/`f.tell` offsets
and character counts coincide; the exception path (a read failure) is
a filesystem fault outside the model.
-/

/-- The observable file: its text and its `st_mtime`. -/
structure FsFile where
  content : String
  mtime : ℚ
deriving DecidableEq

/-- `FileState` (without the redundant `path` field). -/
structure FileState where
  position : ℕ := 0
  last_modified : ℚ := 0
  last_size : ℕ := 0
  last_read : Option ℕ := none
  error_count : ℕ := 0
  line_count : ℕ := 0
deriving DecidableEq

/-- `get_new_content(file_path)`: `file` is the current file system
entry for the path (`none` when absent), `tracked` the tracker's
current state for it, `now` the `datetime.utcnow()` read.  Returns
the `(new_content, has_new_content)` pair and the updated tracker
entry. -/
def get_new_content (file : Option FsFile) (tracked : Option FileState) (now : ℕ) :
    (String × Bool) × Option FileState :=
  match file with
  | none => (("", false), tracked)
  | some f =>
    let st := tracked.getD {}
    let current_size := f.content.length
    if f.mtime = st.last_modified ∧ current_size = st.last_size then
      (("", false), some st)
    else
      let st := if current_size < st.last_size then { st with position := 0, line_count := 0 } else st
      let new_content := strDrop f.content st.position
      let st := { st with
        position := st.position + new_content.length
        last_modified := f.mtime
        last_size := current_size
        last_read := some now
        error_count := 0
        line_count := st.line_count + countChar new_content '\n' }
      ((new_content, new_content != ""), some st)

end Tracker

namespace GasStatus

/-!
`resources/dashboard/server/gas_status.py`,
`GASStatusCollector._determine_agent_status`, with
`IDLE_THRESHOLD_SECONDS = 60` and `COMPLETION_THRESHOLD_SECONDS = 120`
from `config.py`.  Timestamps are epoch seconds in `ℚ`; the source's
timezone normalisation maps both datetimes into UTC and is the
identity on the modelled values.
-/

/-- `_determine_agent_status(parsed, now)`. -/
def determine_agent_status (p : OutParse.ParsedOutput) (now : ℚ) : String :=
  if p.has_completion_marker then "completed"
  else
    match p.last_activity with
    | none => if p.total_events = 0 then "pending" else "idle"
    | some t =>
      let seconds_since_activity := now - t
      if seconds_since_activity > 120 then
        if p.total_events > 20 then "completed" else "idle"
      else if seconds_since_activity > 60 then "idle"
      else "running"

/-- The status derivation as the specification states it (spec §4.8 /
claim C8), written from the spec's words for comparison with the
source-derived `determine_agent_status`: completion marker ⇒
`completed`; absent `last_activity` ⇒ `pending` when no events were
seen, `idle` otherwise; else with `Δ = now - last_activity`:
`Δ > 120 s` with more than 20 events ⇒ `completed`, `Δ > 120 s`
otherwise ⇒ `idle`, `Δ > 60 s` ⇒ `idle`, else `running`. -/
def agent_status_spec (p : OutParse.ParsedOutput) (now : ℚ) : String :=
  if p.has_completion_marker then "completed"
  else
    match p.last_activity with
    | none => if p.total_events = 0 then "pending" else "idle"
    | some t =>
      if now - t > 120 ∧ p.total_events > 20 then "completed"
      else if now - t > 120 then "idle"
      else if now - t > 60 then "idle"
      else "running"

end GasStatus

/-! Concrete instances used by the theorems below. -/

namespace OutParse

/-- `{"type": "tool_use", "name": "Write", "input": {"file_path": "a.py"}}`. -/
def exWrite : Json :=
  .obj [("type", .str "tool_use"), ("name", .str "Write"),
        ("input", .obj [("file_path", .str "a.py")])]

/-- `{"type": "tool_use", "name": "Edit", "input": {"file_path": "a.py"}}`. -/
def exEdit : Json :=
  .obj [("type", .str "tool_use"), ("name", .str "Edit"),
        ("input", .obj [("file_path", .str "a.py")])]

/-- `{"type": "tool_use", "name": "Bash"}`. -/
def exBash : Json :=
  .obj [("type", .str "tool_use"), ("name", .str "Bash")]

/-- A 200-character error message. -/
def errMsg200 : String := String.mk (List.replicate 200 'x')

/-- An error event whose message is exactly 200 characters long. -/
def exError200 : Json := .obj [("type", .str "error"), ("message", .str errMsg200)]

/-- An error event with a short message. -/
def exErrorShort : Json := .obj [("type", .str "error"), ("message", .str "boom")]

end OutParse

namespace Knowledge

/-- The spec's scenario-3 `add` call: success pattern
`(context="API", pattern="use async queries")` with the default
confidence. -/
def exAdd : AddArgs :=
  { ptype := .success_pattern, context := "API", pattern := "use async queries" }

/-- A success-pattern entry from generation 1 with one occurrence. -/
def decayExEntry : KEntry :=
  { id := "deadbeef", context := "API", pattern := "use async queries",
    confidence := 3/4, added_at := 0, last_seen := 0, occurrences := 1,
    source_generation := some 1 }

/-- A store holding only `decayExEntry`. -/
def decayExStore : KnowledgeStore := { success_patterns := [decayExEntry] }

/-- The `add` call C10's witness performs: same pattern as
`decayExEntry`, different context. -/
def exAddOtherContext : AddArgs :=
  { ptype := .success_pattern, context := "database layer", pattern := "use async queries" }

end Knowledge

namespace Waves

/-- A two-wave swarm: wave 1 = `[a1]` (completed), wave 2 = `[a2]`
(pending at generation 0). -/
def exState : SwarmState :=
  { current_wave := 1, total_waves := 2,
    waves := [(1, { status := "running", started_at := some 0, agents := ["a1"] }),
              (2, { agents := ["a2"] })],
    agents := [("a1", { status := "completed", current_generation := 1 }),
               ("a2", { status := "pending", current_generation := 0 })] }

end Waves

namespace Tracker

/-- The 100-byte file of spec scenario 5. -/
def exFileA : FsFile := { content := String.mk (List.replicate 100 'a'), mtime := 1 }

/-- The same file grown to 250 bytes. -/
def exFileB : FsFile :=
  { content := String.mk (List.replicate 100 'a' ++ List.replicate 150 'b'), mtime := 2 }

end Tracker


/-! # Theorems -/

/-- C8: for every parsed output and current time `now`, the agent
status is derived as: `has_completion_marker` true implies
`completed`; otherwise, if `last_activity` is absent the status is
`pending` when `total_events == 0` and `idle` otherwise; otherwise,
with `Δ = now - last_activity`, `Δ > 120 s` with `total_events > 20`
gives `completed`, `Δ > 120 s` otherwise gives `idle`, `Δ > 60 s`
gives `idle`, and otherwise the status is `running`. -/
theorem GasStatus.C8_status_derivation
    (p : OutParse.ParsedOutput) (now : ℚ) :
    GasStatus.determine_agent_status p now = GasStatus.agent_status_spec p now := by
  unfold GasStatus.determine_agent_status GasStatus.agent_status_spec
  cases hm : p.has_completion_marker
  · simp only [Bool.false_eq_true, if_false]
    cases hl : p.last_activity
    · rfl
    · rename_i t
      by_cases h1 : now - t > 120
      · by_cases h2 : p.total_events > 20 <;> simp [h1, h2]
      · by_cases h3 : now - t > 60 <;> simp [h1, h3]
  · simp

/-- C6 (amended): `decay(current_gen)` reduces confidence by exactly
0.10, floored at 0.10, for every success-pattern and anti-pattern
entry that records a nonzero source generation MORE than 2
generations behind `current_gen` (`current_gen - source_gen > 2`,
i.e. at least 3 behind) and whose occurrences is at most 1, and
leaves every other entry — including all domain-knowledge entries —
unchanged. -/
theorem Knowledge.C6_decay_amended (s : Knowledge.KnowledgeStore) (cur : ℤ) (now : ℕ) :
    (Knowledge.decay_unused_patterns s cur now).success_patterns =
      s.success_patterns.map (fun p =>
        if p.source_generation.getD 0 ≠ 0 ∧ cur - p.source_generation.getD 0 > 2 ∧
            p.occurrences ≤ 1 then
          { p with confidence := max (1/10) (p.confidence - 1/10) }
        else p) ∧
    (Knowledge.decay_unused_patterns s cur now).anti_patterns =
      s.anti_patterns.map (fun p =>
        if p.source_generation.getD 0 ≠ 0 ∧ cur - p.source_generation.getD 0 > 2 ∧
            p.occurrences ≤ 1 then
          { p with confidence := max (1/10) (p.confidence - 1/10) }
        else p) ∧
    (Knowledge.decay_unused_patterns s cur now).domain_knowledge = s.domain_knowledge := by
  refine ⟨?_, ?_, rfl⟩ <;> rfl

/-- C6 (counterexample): a success-pattern entry from source
generation 1 with one occurrence, at `current_gen = 3`, is exactly 2
generations behind — the claim demands a 0.10 confidence reduction,
but `decay` leaves the store unchanged because the source requires
`current_generation - source_gen > 2`. -/
theorem Knowledge.C6_decay_counterexample :
    (Knowledge.decay_unused_patterns Knowledge.decayExStore 3 9).success_patterns =
      [Knowledge.decayExEntry] ∧
    Knowledge.decayExEntry.source_generation = some 1 ∧
    (3 : ℤ) - 1 ≥ 2 ∧
    Knowledge.decayExEntry.occurrences ≤ 1 ∧
    Knowledge.decayExEntry.confidence ≠ Knowledge.decayExEntry.confidence - 1/10 := by
  refine ⟨?_, rfl, by norm_num, le_refl 1, ?_⟩
  · show List.map _ _ = _
    norm_num [Knowledge.decay_entry, Knowledge.decayExStore, Knowledge.decayExEntry]
  · show (3/4 : ℚ) ≠ 3/4 - 1/10
    norm_num

set_option maxRecDepth 20000 in
/-- C3 (counterexample): an NDJSON stream of 21 `Bash` tool_use
events yields 21 tool invocations; the claim's formula gives
`min(95, 3·21) = 63`, but the source caps the tool contribution at 60
(`min(60, total·3)`), so `progress_estimate = 60`. -/
theorem OutParse.C3_progress_counterexample :
    (OutParse.parse_output_content (List.replicate 21 OutParse.exBash) none).progress_estimate ≠
      min 95
        (3 * ((OutParse.parse_output_content (List.replicate 21 OutParse.exBash) none).tools_used.map
            (·.2)).sum +
          5 * (OutParse.parse_output_content (List.replicate 21 OutParse.exBash) none).files_created.length +
          2 * (OutParse.parse_output_content (List.replicate 21 OutParse.exBash) none).files_modified.length +
          (if (OutParse.parse_output_content (List.replicate 21 OutParse.exBash) none).current_task ≠ ""
           then 5 else 0)) := by
  decide

set_option maxRecDepth 20000 in
/-- C3 (amended): `progress_estimate` equals 100 when
`has_completion_marker` is true, and otherwise equals
`min(95, min(60, 3·∑tools) + min(20, 5·|files_created|) +
min(10, 2·|files_modified|) + (5 if current_task else 0))` — each
contribution is individually capped before the overall 95 cap.  The
claim's NDJSON example (`Write a.py`, `Edit a.py`, `Bash`) stays
below every individual cap, so its aggregates and
`progress_estimate = 16` are exactly as the claim states. -/
theorem OutParse.C3_progress_amended :
    (∀ p : OutParse.ParsedOutput,
      OutParse.estimate_progress p =
        if p.has_completion_marker then 100
        else
          min 95
            (min 60 (3 * (p.tools_used.map (·.2)).sum) +
              min 20 (5 * p.files_created.length) +
              min 10 (2 * p.files_modified.length) +
              (if p.current_task ≠ "" then 5 else 0))) ∧
    (OutParse.parse_output_content [OutParse.exWrite, OutParse.exEdit, OutParse.exBash] none).tools_used =
      [("Write", 1), ("Edit", 1), ("Bash", 1)] ∧
    (OutParse.parse_output_content [OutParse.exWrite, OutParse.exEdit, OutParse.exBash] none).files_created =
      ["a.py"] ∧
    (OutParse.parse_output_content [OutParse.exWrite, OutParse.exEdit, OutParse.exBash] none).files_modified =
      ["a.py"] ∧
    (OutParse.parse_output_content [OutParse.exWrite, OutParse.exEdit, OutParse.exBash] none).progress_estimate =
      16 := by
  refine ⟨fun p => ?_, by decide, by decide, by decide, by decide⟩
  unfold OutParse.estimate_progress
  cases p.has_completion_marker
  · simp [Nat.mul_comm]
  · simp

namespace Triggers

/-- Helper: the source's `max(scores, key=scores.get)` over the
insertion order (interactions, confidence, errors, stall) picks the
first factor whose score equals the maximum. -/
theorem firstArgmax_eq (si sc se ss : ℚ) :
    firstArgmax ("interactions", si) [("confidence", sc), ("errors", se), ("stall", ss)] =
      (if si ≥ sc ∧ si ≥ se ∧ si ≥ ss then "interactions"
       else if sc ≥ se ∧ sc ≥ ss then "confidence"
       else if se ≥ ss then "errors"
       else "stall") := by
  by_cases A : si ≥ sc ∧ si ≥ se ∧ si ≥ ss
  · have h1 : ¬ (sc > si) := not_lt.mpr A.1
    have h2 : ¬ (se > si) := not_lt.mpr A.2.1
    have h3 : ¬ (ss > si) := not_lt.mpr A.2.2
    rw [if_pos A]
    simp [firstArgmax, h1, h2, h3]
  · rw [if_neg A]
    push_neg at A
    by_cases B : sc ≥ se ∧ sc ≥ ss
    · have h1 : sc > si := by
        by_contra h
        push_neg at h
        have := A (by linarith) (by linarith [B.1])
        linarith [B.2]
      have h2 : ¬ (se > sc) := not_lt.mpr B.1
      have h3 : ¬ (ss > sc) := not_lt.mpr B.2
      rw [if_pos B]
      simp [firstArgmax, h1, h2, h3]
    · rw [if_neg B]
      push_neg at B
      by_cases Cc : se ≥ ss
      · rw [if_pos Cc]
        have hses : se > sc := by
          by_contra h
          push_neg at h
          have := B h
          linarith
        have hsesi : se > si := by
          by_contra h
          push_neg at h
          have := A (by linarith) (by linarith)
          linarith
        have h3 : ¬ (ss > se) := not_lt.mpr Cc
        by_cases h1 : sc > si <;> simp [firstArgmax, h1, hses, hsesi, h3]
      · rw [if_neg Cc]
        push_neg at Cc
        have hss_sc : ss > sc := by
          by_cases hc : sc ≥ se
          · exact B hc
          · push_neg at hc
            linarith
        have hss_si : ss > si := by
          by_contra h
          push_neg at h
          have := A (by linarith) (by linarith)
          linarith
        by_cases h1 : sc > si <;> by_cases h2 : se > sc <;> by_cases h3 : se > si <;>
          simp [firstArgmax, h1, h2, h3, Cc, hss_sc, hss_si]

/-- Helper: `evaluate_triggers` written out against precomputed
factor scores and weighted sum. -/
theorem evaluate_triggers_eq (st : GenStatus) (m si sc se ss w : ℚ)
    (hm : st.elapsed_minutes = some m)
    (hsi : min ((st.interactions : ℚ) / 150) 1 = si)
    (hsc : max 0 (1 - st.confidence / (7/10)) = sc)
    (hse : min (((st.errors : ℚ) / (max st.interactions 1 : ℕ)) / (15/100)) 1 = se)
    (hss : min (m / 10) 1 = ss)
    (hw : si * (25/100) + sc * (30/100) + se * (25/100) + ss * (20/100) = w) :
    evaluate_triggers st =
      { should_handoff := decide (w > 5/10)
        urgency := if w > 7/10 then "immediate" else if w > 5/10 then "soon" else "none"
        primary_trigger := firstArgmax ("interactions", si)
          [("confidence", sc), ("errors", se), ("stall", ss)]
        score_interactions := si, score_confidence := sc, score_errors := se
        score_stall := ss, weighted_score := w } := by
  subst hsi hsc hse hss hw
  unfold evaluate_triggers
  rw [hm]

/-- C1: for every status snapshot with a present `last_updated`, the
trigger evaluator computes the factor scores
`interactions = min(interactions/150, 1)`,
`confidence = max(0, 1 - confidence/0.70)`,
`errors = min((errors/max(interactions,1))/0.15, 1)`,
`stall = min(minutes since last_updated / 10, 1)`; the weighted score
is `0.25·interactions + 0.30·confidence + 0.25·errors + 0.20·stall`;
urgency is `immediate` above 0.70, `soon` above 0.50, else `none`;
and the primary trigger is the factor with the highest raw score with
ties broken in the order interactions, confidence, errors, stall.
The claim's first example evaluates to scores (1, 1/7, 1, 1) and
weighted score 26/35 — exactly 0.742857…, whose three-decimal
rounding is the claim's 0.743 (the difference is under half a
thousandth) — with urgency `immediate` and primary trigger
`interactions`; the brand-new generation evaluates to weighted score
0 with urgency `none`. -/
theorem C1_trigger_evaluation :
    (∀ (i er : ℕ) (c m : ℚ),
      (evaluate_triggers ⟨i, c, er, some m⟩).score_interactions = min ((i : ℚ) / 150) 1 ∧
      (evaluate_triggers ⟨i, c, er, some m⟩).score_confidence = max 0 (1 - c / (7/10)) ∧
      (evaluate_triggers ⟨i, c, er, some m⟩).score_errors =
        min (((er : ℚ) / (max i 1 : ℕ)) / (15/100)) 1 ∧
      (evaluate_triggers ⟨i, c, er, some m⟩).score_stall = min (m / 10) 1 ∧
      (evaluate_triggers ⟨i, c, er, some m⟩).weighted_score =
        (evaluate_triggers ⟨i, c, er, some m⟩).score_interactions * (25/100) +
        (evaluate_triggers ⟨i, c, er, some m⟩).score_confidence * (30/100) +
        (evaluate_triggers ⟨i, c, er, some m⟩).score_errors * (25/100) +
        (evaluate_triggers ⟨i, c, er, some m⟩).score_stall * (20/100) ∧
      (evaluate_triggers ⟨i, c, er, some m⟩).urgency =
        (if (evaluate_triggers ⟨i, c, er, some m⟩).weighted_score > 7/10 then "immediate"
         else if (evaluate_triggers ⟨i, c, er, some m⟩).weighted_score > 5/10 then "soon"
         else "none") ∧
      (evaluate_triggers ⟨i, c, er, some m⟩).should_handoff =
        decide ((evaluate_triggers ⟨i, c, er, some m⟩).weighted_score > 5/10) ∧
      (evaluate_triggers ⟨i, c, er, some m⟩).primary_trigger =
        (if (evaluate_triggers ⟨i, c, er, some m⟩).score_interactions ≥
              (evaluate_triggers ⟨i, c, er, some m⟩).score_confidence ∧
            (evaluate_triggers ⟨i, c, er, some m⟩).score_interactions ≥
              (evaluate_triggers ⟨i, c, er, some m⟩).score_errors ∧
            (evaluate_triggers ⟨i, c, er, some m⟩).score_interactions ≥
              (evaluate_triggers ⟨i, c, er, some m⟩).score_stall then "interactions"
         else if (evaluate_triggers ⟨i, c, er, some m⟩).score_confidence ≥
              (evaluate_triggers ⟨i, c, er, some m⟩).score_errors ∧
            (evaluate_triggers ⟨i, c, er, some m⟩).score_confidence ≥
              (evaluate_triggers ⟨i, c, er, some m⟩).score_stall then "confidence"
         else if (evaluate_triggers ⟨i, c, er, some m⟩).score_errors ≥
              (evaluate_triggers ⟨i, c, er, some m⟩).score_stall then "errors"
         else "stall")) ∧
    evaluate_triggers ⟨200, 3/5, 35, some 10⟩ =
      { should_handoff := true, urgency := "immediate", primary_trigger := "interactions",
        score_interactions := 1, score_confidence := 1/7, score_errors := 1,
        score_stall := 1, weighted_score := 26/35 } ∧
    |(26/35 : ℚ) - 743/1000| < 1/2000 ∧
    evaluate_triggers ⟨0, 1, 0, some 0⟩ =
      { should_handoff := false, urgency := "none", primary_trigger := "interactions",
        score_interactions := 0, score_confidence := 0, score_errors := 0,
        score_stall := 0, weighted_score := 0 } := by
  refine ⟨fun i er c m => ⟨rfl, rfl, rfl, rfl, rfl, rfl, rfl, firstArgmax_eq _ _ _ _⟩,
    ?_, ?_, ?_⟩
  · rw [evaluate_triggers_eq ⟨200, 3/5, 35, some 10⟩ 10 1 (1/7) 1 1 (26/35) rfl
      (by norm_num [min_def]) (by norm_num [max_def]) (by norm_num [min_def])
      (by norm_num [min_def]) (by norm_num)]
    rw [firstArgmax_eq]
    norm_num
  · rw [abs_lt]
    constructor <;> norm_num
  · rw [evaluate_triggers_eq ⟨0, 1, 0, some 0⟩ 0 0 0 0 0 0 rfl
      (by norm_num [min_def]) (by norm_num [max_def]) (by norm_num [min_def])
      (by norm_num [min_def]) (by norm_num)]
    rw [firstArgmax_eq]
    norm_num

end Triggers

namespace Tracker

set_option maxRecDepth 40000 in
/-- C7: for every tracked path, `get_new_content` returns
`("", false)` when the file's `(mtime, size)` equal the last recorded
values; when the current size is smaller than the last recorded size,
the stored byte offset resets to 0 before reading (so the whole file
is returned and the offset afterwards equals the new size); and a
file that grows from 100 bytes to 250 bytes between polls yields, on
three consecutive calls, the first 100 bytes (changed), the next 150
bytes (changed), and then `("", false)`. -/
theorem C7_position_tracker :
    (∀ (f : FsFile) (st? : Option FileState) (now : ℕ),
      f.mtime = (st?.getD {}).last_modified → f.content.length = (st?.getD {}).last_size →
      get_new_content (some f) st? now = (("", false), some (st?.getD {}))) ∧
    (∀ (f : FsFile) (st? : Option FileState) (now : ℕ),
      f.content.length < (st?.getD {}).last_size →
      (get_new_content (some f) st? now).1.1 = f.content ∧
      ((get_new_content (some f) st? now).2.map FileState.position) = some f.content.length) ∧
    ((get_new_content (some exFileA) none 5).1 = (String.mk (List.replicate 100 'a'), true) ∧
     (get_new_content (some exFileB) (get_new_content (some exFileA) none 5).2 6).1 =
       (String.mk (List.replicate 150 'b'), true) ∧
     (get_new_content (some exFileB)
        (get_new_content (some exFileB) (get_new_content (some exFileA) none 5).2 6).2 7).1 =
       ("", false)) := by
  refine ⟨?_, ?_, by decide, by decide, by decide⟩
  · intro f st? now h1 h2
    simp [get_new_content, h1, h2]
  · intro f st? now h
    have hne : ¬ (f.mtime = (st?.getD {}).last_modified ∧
        f.content.length = (st?.getD {}).last_size) := by
      rintro ⟨-, h2⟩
      omega
    simp only [get_new_content, if_neg hne, if_pos h]
    constructor
    · show strDrop f.content 0 = f.content
      simp [strDrop]
    · simp [strDrop]

/-- C7 (witness): the unchanged-file clause applied to an empty file
whose stat matches the fresh tracker entry. -/
theorem C7_position_tracker_witness :
    get_new_content (some { content := "", mtime := 0 }) none 5 =
      (("", false), some ({} : FileState)) :=
  C7_position_tracker.1 { content := "", mtime := 0 } none 5 rfl rfl

end Tracker

namespace Knowledge

theorem update_first_cons (now : ℕ) (pl : String) (p : KEntry) (rest : List KEntry) :
    update_first_similar now pl (p :: rest) =
      if similar (lowerStr p.pattern) pl then some (bump now p :: rest)
      else (update_first_similar now pl rest).map (p :: ·) := rfl

theorem bump_fields (now : ℕ) (e : KEntry) :
    bump now e =
      { e with
        occurrences := e.occurrences + 1
        last_seen := now
        confidence :=
          if e.occurrences + 1 ≥ 3 then min 1 (e.confidence + 5/100) else e.confidence } := by
  simp only [bump]
  split <;> rfl

theorem bump_pattern (now : ℕ) (e : KEntry) : (bump now e).pattern = e.pattern := by
  rw [bump_fields]

theorem update_first_length (now : ℕ) (pl : String) :
    ∀ (l l' : List KEntry), update_first_similar now pl l = some l' → l'.length = l.length := by
  intro l
  induction l with
  | nil =>
    intro l' h
    exact Option.noConfusion h
  | cons p rest ih =>
    intro l' h
    rw [update_first_cons] at h
    split at h
    · cases h
      simp
    · cases hr : update_first_similar now pl rest with
      | none =>
        rw [hr] at h
        exact Option.noConfusion h
      | some r' =>
        rw [hr] at h
        have h2 : p :: r' = l' := by simpa using h
        subst h2
        simp [ih r' hr]

theorem update_first_none_iff (now : ℕ) (pl : String) (l : List KEntry) :
    update_first_similar now pl l = none ↔
      ∀ p ∈ l, similar (lowerStr p.pattern) pl = false := by
  induction l with
  | nil =>
    constructor
    · intro _ p hp
      exact absurd hp (List.not_mem_nil p)
    · intro _
      rfl
  | cons p rest ih =>
    rw [update_first_cons]
    constructor
    · intro h
      split at h
      · cases h
      · intro q hq
        rcases List.mem_cons.mp hq with rfl | hq'
        · rename_i hns
          exact Bool.eq_false_iff.mpr hns
        · refine (ih.mp ?_) q hq'
          cases hr : update_first_similar now pl rest with
          | none => rfl
          | some r' =>
            rw [hr] at h
            exact Option.noConfusion h
    · intro h
      rw [if_neg (by simp [h p (List.mem_cons_self p rest)])]
      rw [ih.mpr fun q hq => h q (List.mem_cons_of_mem p hq)]
      rfl

theorem similar_self (x : String) : similar x x = true := by
  simp [similar]

theorem update_first_structure (now : ℕ) (pl : String) :
    ∀ (l l' : List KEntry), update_first_similar now pl l = some l' →
      ∃ l₁ e l₂, l = l₁ ++ e :: l₂ ∧
        (∀ q ∈ l₁, similar (lowerStr q.pattern) pl = false) ∧
        similar (lowerStr e.pattern) pl = true ∧
        l' = l₁ ++ bump now e :: l₂ := by
  intro l
  induction l with
  | nil =>
    intro l' h
    exact Option.noConfusion h
  | cons p rest ih =>
    intro l' h
    rw [update_first_cons] at h
    split at h
    · rename_i hs
      cases h
      exact ⟨[], p, rest, by simp, by simp, hs, by simp⟩
    · rename_i hns
      cases hr : update_first_similar now pl rest with
      | none =>
        rw [hr] at h
        exact Option.noConfusion h
      | some r' =>
        rw [hr] at h
        have h2 : p :: r' = l' := by simpa using h
        subst h2
        obtain ⟨l₁, e, l₂, heq, hall, hsim, hr'⟩ := ih r' hr
        refine ⟨p :: l₁, e, l₂, by simp [heq], ?_, hsim, by simp [hr']⟩
        intro q hq
        rcases List.mem_cons.mp hq with rfl | hq'
        · exact Bool.eq_false_iff.mpr hns
        · exact hall q hq'

theorem update_first_append_of_none (now : ℕ) (pl : String) (l : List KEntry) (e : KEntry)
    (hl : ∀ p ∈ l, similar (lowerStr p.pattern) pl = false)
    (he : similar (lowerStr e.pattern) pl = true) :
    update_first_similar now pl (l ++ [e]) = some (l ++ [bump now e]) := by
  induction l with
  | nil => simp [update_first_cons, he]
  | cons p rest ih =>
    have hp := hl p (List.mem_cons_self p rest)
    rw [List.cons_append, update_first_cons, if_neg (by simp [hp]),
      ih fun q hq => hl q (List.mem_cons_of_mem p hq)]
    rfl

theorem update_first_of_find (now : ℕ) (pl : String) :
    ∀ (l : List KEntry) (e : KEntry),
      l.find? (fun p => similar (lowerStr p.pattern) pl) = some e →
      ∃ l₁ l₂, l = l₁ ++ e :: l₂ ∧
        (∀ q ∈ l₁, similar (lowerStr q.pattern) pl = false) ∧
        update_first_similar now pl l = some (l₁ ++ bump now e :: l₂) := by
  intro l
  induction l with
  | nil =>
    intro e h
    exact Option.noConfusion h
  | cons p rest ih =>
    intro e h
    by_cases hp : similar (lowerStr p.pattern) pl = true
    · rw [List.find?_cons, hp] at h
      cases h
      exact ⟨[], rest, by simp, by simp, by rw [update_first_cons, if_pos hp, List.nil_append]⟩
    · have hpb : similar (lowerStr p.pattern) pl = false := Bool.eq_false_iff.mpr hp
      rw [List.find?_cons, hpb] at h
      obtain ⟨l₁, l₂, heq, hall, hupd⟩ := ih e h
      refine ⟨p :: l₁, l₂, by simp [heq], ?_, ?_⟩
      · intro q hq
        rcases List.mem_cons.mp hq with rfl | hq'
        · exact hpb
        · exact hall q hq'
      · rw [update_first_cons, if_neg (by simp [hpb]), hupd]
        rfl

theorem length_insertByConfidence (e : KEntry) (l : List KEntry) :
    (insertByConfidence e l).length = l.length + 1 := by
  induction l with
  | nil => rfl
  | cons x xs ih =>
    unfold insertByConfidence
    split
    · simp
    · simp [ih]

theorem length_sortByConfidence (l : List KEntry) :
    (sortByConfidence l).length = l.length := by
  induction l with
  | nil => rfl
  | cons x xs ih =>
    show (insertByConfidence x (sortByConfidence xs)).length = xs.length + 1
    rw [length_insertByConfidence, ih]

theorem length_prune_by_confidence (l : List KEntry) (cap : ℕ) :
    (prune_by_confidence l cap).length = min cap l.length := by
  simp [prune_by_confidence, length_sortByConfidence]

theorem appendCapped_eq (l : List KEntry) (e : KEntry) (cap : ℕ) :
    appendCapped l e cap =
      if l.length + 1 > cap then prune_by_confidence (l ++ [e]) cap else l ++ [e] := by
  unfold appendCapped
  simp [List.length_append]

theorem length_appendCapped (l : List KEntry) (e : KEntry) (cap : ℕ) :
    (appendCapped l e cap).length ≤ cap := by
  rw [appendCapped_eq]
  by_cases hc : l.length + 1 > cap
  · rw [if_pos hc, length_prune_by_confidence]
    exact min_le_left _ _
  · rw [if_neg hc]
    simp only [List.length_append, List.length_singleton]
    omega

theorem length_appendCapped_overflow (l : List KEntry) (e : KEntry) (cap : ℕ)
    (h : l.length + 1 > cap) : (appendCapped l e cap).length = cap := by
  rw [appendCapped_eq, if_pos h, length_prune_by_confidence]
  simp only [List.length_append, List.length_singleton]
  omega

theorem add_pattern_target (s : KnowledgeStore) (a : AddArgs) (now : ℕ) :
    targetList (add_pattern s a now) a.ptype =
      (match update_first_similar now (lowerStr a.pattern) (targetList s a.ptype) with
       | some l' => l'
       | none => appendCapped (targetList s a.ptype) (newEntry a now) (capOf a.ptype)) := by
  rcases a with ⟨pt, ctx, pat, conf, sg, sa, ev, im⟩
  cases pt
  case success_pattern =>
    show (add_pattern ..).success_patterns = _
    unfold add_pattern
    cases h : update_first_similar now (lowerStr pat) s.success_patterns <;>
      simp [targetList, h, newEntry, capOf]
  case anti_pattern =>
    show (add_pattern ..).anti_patterns = _
    unfold add_pattern
    cases h : update_first_similar now (lowerStr pat) s.anti_patterns <;>
      simp [targetList, h, newEntry, capOf]
  case domain_knowledge =>
    show (add_pattern ..).domain_knowledge = _
    unfold add_pattern
    cases h : update_first_similar now (lowerStr pat) s.domain_knowledge <;>
      simp [targetList, h, newEntry, capOf]

theorem newEntry_pattern (a : AddArgs) (now : ℕ) : (newEntry a now).pattern = a.pattern := by
  rcases a with ⟨pt, ctx, pat, conf, sg, sa, ev, im⟩
  cases pt <;> rfl

theorem newEntry_occurrences (a : AddArgs) (now : ℕ) : (newEntry a now).occurrences = 1 := by
  rcases a with ⟨pt, ctx, pat, conf, sg, sa, ev, im⟩
  cases pt <;> rfl

theorem capsOk_add (s : KnowledgeStore) (a : AddArgs) (now : ℕ) (h : capsOk s) :
    capsOk (add_pattern s a now) := by
  unfold capsOk at h ⊢
  obtain ⟨h1, h2, h3⟩ := h
  rcases a with ⟨pt, ctx, pat, conf, sg, sa, ev, im⟩
  cases pt
  case success_pattern =>
    unfold add_pattern
    cases hu : update_first_similar now (lowerStr pat) s.success_patterns with
    | some l' =>
      simp only [hu]
      exact ⟨le_of_eq_of_le (update_first_length now _ _ _ hu) h1, h2, h3⟩
    | none =>
      simp only [hu]
      exact ⟨length_appendCapped _ _ _, h2, h3⟩
  case anti_pattern =>
    unfold add_pattern
    cases hu : update_first_similar now (lowerStr pat) s.anti_patterns with
    | some l' =>
      simp only [hu]
      exact ⟨h1, le_of_eq_of_le (update_first_length now _ _ _ hu) h2, h3⟩
    | none =>
      simp only [hu]
      exact ⟨h1, length_appendCapped _ _ _, h3⟩
  case domain_knowledge =>
    unfold add_pattern
    cases hu : update_first_similar now (lowerStr pat) s.domain_knowledge with
    | some l' =>
      simp only [hu]
      exact ⟨h1, h2, le_of_eq_of_le (update_first_length now _ _ _ hu) h3⟩
    | none =>
      simp only [hu]
      exact ⟨h1, h2, length_appendCapped _ _ _⟩

end Knowledge

namespace Knowledge

/-- C4: after any call to `add`, and for every sequence of prior adds
starting from the empty store, the success-pattern list holds at most
50 entries, the anti-pattern list at most 25, and the
domain-knowledge list at most 100; `add` preserves the caps from any
store satisfying them; and when an insertion would exceed a list's
cap, exactly the top-cap entries by confidence are kept
(`prune_by_confidence`, the stable descending sort by confidence cut
at the cap). -/
theorem C4_store_caps :
    (∀ adds : List AddArgs, capsOk (applyAdds {} adds)) ∧
    (∀ (s : KnowledgeStore) (a : AddArgs) (now : ℕ), capsOk s → capsOk (add_pattern s a now)) ∧
    (∀ (l : List KEntry) (e : KEntry) (cap : ℕ), l.length + 1 > cap →
      appendCapped l e cap = prune_by_confidence (l ++ [e]) cap) := by
  refine ⟨?_, capsOk_add, ?_⟩
  · intro adds
    suffices hgen : ∀ (adds : List AddArgs) (s : KnowledgeStore) (n : ℕ), capsOk s →
        capsOk ((adds.foldl (fun (p : KnowledgeStore × ℕ) a =>
          (add_pattern p.1 a p.2, p.2 + 1)) (s, n)).1) by
      exact hgen adds {} 1 (by decide)
    intro adds
    induction adds with
    | nil => intro s n h; exact h
    | cons a rest ih =>
      intro s n h
      exact ih (add_pattern s a n) (n + 1) (capsOk_add s a n h)
  · intro l e cap h
    rw [appendCapped_eq, if_pos h]

/-- C4 (witness): the caps hold for the empty store and are preserved
by a concrete `add`. -/
theorem C4_store_caps_witness :
    capsOk ({} : KnowledgeStore) ∧ capsOk (add_pattern {} exAdd 1) :=
  ⟨by decide, C4_store_caps.2.1 {} exAdd 1 (by decide)⟩

/-- C5: adding the same `(context, pattern)` pair twice never
increases the target list's length; when the pair was fresh (no
similar pattern stored, list below its cap), the second add leaves
the list identical except that the inserted entry's `occurrences`
becomes 2 and its `last_seen` becomes the second call's timestamp —
confidence, id, context and everything else unchanged.  Adding the
success pattern `(context="API", pattern="use async queries")` three
times with the default confidence 0.75 leaves exactly one entry with
`occurrences = 3` and `confidence = 0.80` (the third add reaches the
promotion threshold 3 and bumps confidence by 0.05). -/
theorem C5_dedup :
    (∀ (s : KnowledgeStore) (a : AddArgs) (n1 n2 : ℕ),
      (targetList (add_pattern (add_pattern s a n1) a n2) a.ptype).length =
        (targetList (add_pattern s a n1) a.ptype).length) ∧
    (∀ (s : KnowledgeStore) (a : AddArgs) (n1 n2 : ℕ),
      update_first_similar n1 (lowerStr a.pattern) (targetList s a.ptype) = none →
      (targetList s a.ptype).length + 1 ≤ capOf a.ptype →
      targetList (add_pattern (add_pattern s a n1) a n2) a.ptype =
        targetList s a.ptype ++ [{ newEntry a n1 with occurrences := 2, last_seen := n2 }]) ∧
    ((add_pattern (add_pattern (add_pattern {} exAdd 1) exAdd 2) exAdd 3).success_patterns.map
        (fun e => (e.occurrences, e.confidence)) = [(3, 4/5)]) := by
  refine ⟨?_, ?_, ?_⟩
  · intro s a n1 n2
    rw [add_pattern_target (add_pattern s a n1) a n2, add_pattern_target s a n1]
    cases h1 : update_first_similar n1 (lowerStr a.pattern) (targetList s a.ptype) with
    | some l1 =>
      simp only []
      cases h2 : update_first_similar n2 (lowerStr a.pattern) l1 with
      | some l2 => exact update_first_length n2 _ _ _ h2
      | none =>
        exfalso
        obtain ⟨lA, e, lB, heq, hall, hsim, hl1⟩ := update_first_structure n1 _ _ _ h1
        have hmem : bump n1 e ∈ l1 := by rw [hl1]; simp
        have hfalse := (update_first_none_iff n2 _ l1).mp h2 (bump n1 e) hmem
        rw [bump_pattern, hsim] at hfalse
        exact Bool.noConfusion hfalse
    | none =>
      simp only []
      by_cases hlen : (targetList s a.ptype).length + 1 > capOf a.ptype
      · have hT1 : (appendCapped (targetList s a.ptype) (newEntry a n1) (capOf a.ptype)).length =
            capOf a.ptype := length_appendCapped_overflow _ _ _ hlen
        cases h2 : update_first_similar n2 (lowerStr a.pattern)
            (appendCapped (targetList s a.ptype) (newEntry a n1) (capOf a.ptype)) with
        | some l2 => exact update_first_length n2 _ _ _ h2
        | none =>
          rw [length_appendCapped_overflow _ _ _ (by omega), hT1]
      · rw [appendCapped_eq, if_neg hlen]
        rw [update_first_append_of_none n2 _ _ _
          ((update_first_none_iff n1 _ _).mp h1)
          (by rw [newEntry_pattern]; exact similar_self _)]
        simp
  · intro s a n1 n2 h1 hlen
    rw [add_pattern_target (add_pattern s a n1) a n2, add_pattern_target s a n1, h1]
    simp only []
    rw [appendCapped_eq, if_neg (by omega)]
    rw [update_first_append_of_none n2 _ _ _
      ((update_first_none_iff n1 _ _).mp h1)
      (by rw [newEntry_pattern]; exact similar_self _)]
    rw [bump_fields, newEntry_occurrences]
    norm_num
  · have hs : (add_pattern (add_pattern (add_pattern {} exAdd 1) exAdd 2) exAdd 3).success_patterns =
        [bump 3 (bump 2 (newEntry exAdd 1))] := rfl
    rw [hs, bump_fields, bump_fields, newEntry_occurrences]
    have hc : (newEntry exAdd 1).confidence = 75/100 := rfl
    simp only [hc]
    norm_num

/-- C5 (witness): the fresh-pair clause applied to the empty store —
two adds of the scenario pattern leave one entry at `occurrences = 2`
with only `last_seen` refreshed. -/
theorem C5_dedup_witness :
    targetList (add_pattern (add_pattern {} exAdd 1) exAdd 2) PatternType.success_pattern =
      [{ newEntry exAdd 1 with occurrences := 2, last_seen := 2 }] := by
  have h := C5_dedup.2.1 {} exAdd 1 2 rfl (by decide)
  simpa using h

end Knowledge

namespace Knowledge

theorem bump_id (now : ℕ) (e : KEntry) : (bump now e).id = e.id := by
  rw [bump_fields]

theorem bump_context (now : ℕ) (e : KEntry) : (bump now e).context = e.context := by
  rw [bump_fields]

theorem bump_occurrences (now : ℕ) (e : KEntry) :
    (bump now e).occurrences = e.occurrences + 1 := by
  rw [bump_fields]

theorem bump_last_seen (now : ℕ) (e : KEntry) : (bump now e).last_seen = now := by
  rw [bump_fields]

/-- C10: duplicate detection considers only the pattern text
(case-insensitive equality or substring containment in either
direction) and ignores the context: whenever the target list holds an
entry with the same (lowercased) pattern, `find_similar_pattern`
finds a match, and `add` with ANY context — in particular a different
one — updates the first matching entry in place (occurrences
incremented, `last_seen` refreshed, stored context, id and pattern
unchanged) instead of inserting a new entry, leaving the list length
unchanged even though ids are derived from the `(context, pattern)`
pair. -/
theorem C10_dedup_ignores_context :
    (∀ (l : List KEntry) (pat : String),
      (∃ e ∈ l, lowerStr e.pattern = lowerStr pat) →
      (find_similar_pattern l pat).isSome = true) ∧
    (∀ (s : KnowledgeStore) (a : AddArgs) (now : ℕ) (e : KEntry),
      find_similar_pattern (targetList s a.ptype) a.pattern = some e →
      ∃ l₁ l₂,
        targetList s a.ptype = l₁ ++ e :: l₂ ∧
        (∀ q ∈ l₁, similar (lowerStr q.pattern) (lowerStr a.pattern) = false) ∧
        targetList (add_pattern s a now) a.ptype = l₁ ++ bump now e :: l₂ ∧
        (targetList (add_pattern s a now) a.ptype).length = (targetList s a.ptype).length ∧
        (bump now e).id = e.id ∧ (bump now e).context = e.context ∧
        (bump now e).pattern = e.pattern ∧
        (bump now e).occurrences = e.occurrences + 1 ∧ (bump now e).last_seen = now) := by
  constructor
  · intro l pat h
    obtain ⟨e, hmem, hpat⟩ := h
    rw [find_similar_pattern, List.find?_isSome]
    exact ⟨e, hmem, by rw [hpat]; exact similar_self _⟩
  · intro s a now e hfind
    rw [find_similar_pattern] at hfind
    obtain ⟨l₁, l₂, heq, hall, hupd⟩ := update_first_of_find now (lowerStr a.pattern) _ e hfind
    refine ⟨l₁, l₂, heq, hall, ?_, ?_, bump_id now e, bump_context now e,
      bump_pattern now e, bump_occurrences now e, bump_last_seen now e⟩
    · rw [add_pattern_target, hupd]
    · rw [add_pattern_target, hupd]
      simp [heq]

/-- C10 (witness): adding the stored pattern under the different
context `"database layer"` updates the single existing entry in
place. -/
theorem C10_witness :
    (targetList (add_pattern decayExStore exAddOtherContext 7) PatternType.success_pattern).length =
      (targetList decayExStore PatternType.success_pattern).length ∧
    targetList (add_pattern decayExStore exAddOtherContext 7) PatternType.success_pattern =
      [bump 7 decayExEntry] := by
  have h := C10_dedup_ignores_context.2 decayExStore exAddOtherContext 7 decayExEntry rfl
  obtain ⟨l₁, l₂, heq, hall, hupd, hlen, _⟩ := h
  have hpt : exAddOtherContext.ptype = PatternType.success_pattern := rfl
  rw [hpt] at heq hupd hlen
  constructor
  · exact hlen
  · have : targetList decayExStore PatternType.success_pattern = [decayExEntry] := rfl
    rw [this] at heq
    have h1 : l₁ = [] := by
      cases l₁ with
      | nil => rfl
      | cons x xs => simp at heq
    subst h1
    simp only [List.nil_append] at heq hupd
    have h2 : l₂ = [] := by
      have := congrArg List.length heq
      simp at this
      exact this
    rw [hupd, h2]

end Knowledge

theorem lookup_cons {α β : Type} [DecidableEq α] (k a : α) (b : β) (t : List (α × β)) :
    List.lookup k ((a, b) :: t) = if k = a then some b else List.lookup k t := by
  by_cases h : k = a
  · simp [List.lookup, h]
  · have hb : (k == a) = false := beq_eq_false_iff_ne.mpr h
    simp [List.lookup, hb, h]

namespace Waves

theorem setWave_cons (a : ℕ) (b : Wave) (t : List (ℕ × Wave)) (k : ℕ) (v : Wave) :
    setWave ((a, b) :: t) k v = (if a = k then (a, v) else (a, b)) :: setWave t k v := by
  by_cases h : a = k <;> simp [setWave, h]

theorem lookup_setWave_self (l : List (ℕ × Wave)) (k : ℕ) (v : Wave) (w : Wave)
    (h : l.lookup k = some w) : (setWave l k v).lookup k = some v := by
  induction l with
  | nil => exact Option.noConfusion h
  | cons kv t ih =>
    obtain ⟨a, b⟩ := kv
    rw [lookup_cons] at h
    rw [setWave_cons]
    by_cases hk : a = k
    · rw [if_pos hk, lookup_cons, if_pos hk.symm]
    · rw [if_neg hk, lookup_cons, if_neg (fun he => hk he.symm)]
      rw [if_neg (fun he => hk he.symm)] at h
      exact ih h

theorem lookup_setWave_ne (l : List (ℕ × Wave)) (k k' : ℕ) (v : Wave) (h : k' ≠ k) :
    (setWave l k v).lookup k' = l.lookup k' := by
  induction l with
  | nil => rfl
  | cons kv t ih =>
    obtain ⟨a, b⟩ := kv
    rw [setWave_cons]
    by_cases hk : a = k
    · rw [if_pos hk, lookup_cons, lookup_cons, if_neg (by omega), if_neg (by omega)]
      exact ih
    · rw [if_neg hk, lookup_cons, lookup_cons]
      by_cases hk' : k' = a
      · rw [if_pos hk', if_pos hk']
      · rw [if_neg hk', if_neg hk']
        exact ih

theorem setKey_cons {β : Type} (a : String) (b : β) (t : List (String × β)) (k : String)
    (v : β) :
    setKey ((a, b) :: t) k v = (if a = k then (a, v) else (a, b)) :: setKey t k v := by
  by_cases h : a = k <;> simp [setKey, h]

theorem lookup_setKey_self {β : Type} (l : List (String × β)) (k : String) (v w : β)
    (h : l.lookup k = some w) : (setKey l k v).lookup k = some v := by
  induction l with
  | nil => exact Option.noConfusion h
  | cons kv t ih =>
    obtain ⟨a, b⟩ := kv
    rw [lookup_cons] at h
    rw [setKey_cons]
    by_cases hk : a = k
    · rw [if_pos hk, lookup_cons, if_pos hk.symm]
    · rw [if_neg hk, lookup_cons, if_neg (fun he => hk he.symm)]
      rw [if_neg (fun he => hk he.symm)] at h
      exact ih h

theorem lookup_setKey_ne {β : Type} (l : List (String × β)) (k k' : String) (v : β)
    (h : k' ≠ k) : (setKey l k v).lookup k' = l.lookup k' := by
  induction l with
  | nil => rfl
  | cons kv t ih =>
    obtain ⟨a, b⟩ := kv
    rw [setKey_cons]
    by_cases hk : a = k
    · subst hk
      rw [if_pos rfl, lookup_cons, lookup_cons, if_neg h, if_neg h]
      exact ih
    · rw [if_neg hk, lookup_cons, lookup_cons]
      by_cases hk' : k' = a
      · rw [if_pos hk', if_pos hk']
      · rw [if_neg hk', if_neg hk']
        exact ih

end Waves

namespace Waves

theorem spawnStep_waves (st : SwarmState) (b : String) : (spawnStep st b).waves = st.waves := by
  unfold spawnStep
  cases st.agents.lookup b with
  | none => rfl
  | some a =>
    by_cases h : a.current_generation = 0 <;> simp [h]

theorem spawnStep_current_wave (st : SwarmState) (b : String) :
    (spawnStep st b).current_wave = st.current_wave := by
  unfold spawnStep
  cases st.agents.lookup b with
  | none => rfl
  | some a =>
    by_cases h : a.current_generation = 0 <;> simp [h]

theorem spawnStep_spawned_mono (st : SwarmState) (b : String) (x : String × ℕ)
    (h : x ∈ st.spawned) : x ∈ (spawnStep st b).spawned := by
  unfold spawnStep
  cases st.agents.lookup b with
  | none => simp [h]
  | some a =>
    by_cases hg : a.current_generation = 0 <;> simp [hg, h]

theorem spawnStep_lookup_ne (st : SwarmState) (b aid : String) (h : aid ≠ b) :
    (spawnStep st b).agents.lookup aid = st.agents.lookup aid := by
  unfold spawnStep
  cases st.agents.lookup b with
  | none => rfl
  | some a =>
    by_cases hg : a.current_generation = 0
    · simp only [hg, if_true]
      exact lookup_setKey_ne _ _ _ _ h
    · simp [hg]

theorem spawnFold_lookup (L : List String) :
    ∀ (st : SwarmState) (aid : String) (a : Agent),
      st.agents.lookup aid = some a →
      (L.foldl spawnStep st).agents.lookup aid =
        some (if aid ∈ L ∧ a.current_generation = 0
              then { a with status := "running", current_generation := 1 } else a) := by
  induction L with
  | nil =>
    intro st aid a h
    simp [h]
  | cons b T ih =>
    intro st aid a h
    rw [List.foldl_cons]
    by_cases hb : aid = b
    · subst hb
      by_cases hg : a.current_generation = 0
      · have hstep : (spawnStep st aid).agents.lookup aid =
            some { a with status := "running", current_generation := 1 } := by
          unfold spawnStep
          rw [h]
          simp only [hg, if_true]
          exact lookup_setKey_self _ _ _ _ h
        rw [ih (spawnStep st aid) aid _ hstep]
        simp [hg]
      · have hstep : (spawnStep st aid).agents.lookup aid = some a := by
          unfold spawnStep
          rw [h]
          simp only [hg, if_false]
          exact h
        rw [ih (spawnStep st aid) aid _ hstep]
        simp [hg]
    · have hstep : (spawnStep st b).agents.lookup aid = some a := by
        rw [spawnStep_lookup_ne st b aid hb]
        exact h
      rw [ih (spawnStep st b) aid _ hstep]
      simp [List.mem_cons, hb]

theorem spawnFold_spawned_mono (L : List String) :
    ∀ (st : SwarmState) (x : String × ℕ), x ∈ st.spawned → x ∈ (L.foldl spawnStep st).spawned := by
  induction L with
  | nil => intro st x h; exact h
  | cons b T ih =>
    intro st x h
    rw [List.foldl_cons]
    exact ih _ x (spawnStep_spawned_mono st b x h)

theorem spawnFold_spawned_mem (L : List String) :
    ∀ (st : SwarmState) (aid : String) (a : Agent), aid ∈ L →
      st.agents.lookup aid = some a → a.current_generation = 0 →
      (aid, 1) ∈ (L.foldl spawnStep st).spawned := by
  induction L with
  | nil =>
    intro st aid a h
    exact absurd h (List.not_mem_nil aid)
  | cons b T ih =>
    intro st aid a hmem h hg
    rw [List.foldl_cons]
    by_cases hb : aid = b
    · subst hb
      have : (aid, 1) ∈ (spawnStep st aid).spawned := by
        unfold spawnStep
        rw [h]
        simp [hg]
      exact spawnFold_spawned_mono T _ _ this
    · have hmem' : aid ∈ T := by
        rcases List.mem_cons.mp hmem with h' | h'
        · exact absurd h' hb
        · exact h'
      have h' : (spawnStep st b).agents.lookup aid = some a := by
        rw [spawnStep_lookup_ne st b aid hb]
        exact h
      exact ih _ aid a hmem' h' hg

theorem spawnFold_waves (L : List String) :
    ∀ st : SwarmState, (L.foldl spawnStep st).waves = st.waves := by
  induction L with
  | nil => intro st; rfl
  | cons b T ih =>
    intro st
    rw [List.foldl_cons, ih, spawnStep_waves]

theorem spawnFold_current_wave (L : List String) :
    ∀ st : SwarmState, (L.foldl spawnStep st).current_wave = st.current_wave := by
  induction L with
  | nil => intro st; rfl
  | cons b T ih =>
    intro st
    rw [List.foldl_cons, ih, spawnStep_current_wave]

end Waves

namespace Waves

theorem advance_snd (s : SwarmState) (now : ℕ) :
    (advance s now).2 = can_advance_wave s := by
  unfold advance advance_wave
  by_cases h : can_advance_wave s = true
  · simp [h]
  · simp [h, Bool.eq_false_iff.mpr h]

theorem can_advance_iff (s : SwarmState) (w : Wave)
    (hw : s.waves.lookup s.current_wave = some w) :
    can_advance_wave s = true ↔
      s.current_wave < s.total_waves ∧
        ∀ aid ∈ w.agents, ∃ a, s.agents.lookup aid = some a ∧
          (a.status = "completed" ∨ a.status = "succeeded") := by
  unfold can_advance_wave
  simp only [hw, Option.getD_some]
  by_cases hord : s.current_wave ≥ s.total_waves
  · rw [if_pos hord]
    constructor
    · intro h
      exact Bool.noConfusion h
    · rintro ⟨h1, -⟩
      omega
  · rw [if_neg hord, List.all_eq_true]
    constructor
    · intro h
      refine ⟨by omega, fun aid hm => ?_⟩
      have hx := h aid hm
      cases hla : s.agents.lookup aid with
      | none =>
        rw [hla] at hx
        exact Bool.noConfusion hx
      | some a =>
        rw [hla] at hx
        simp at hx
        exact ⟨a, rfl, hx⟩
    · rintro ⟨-, h2⟩ aid hm
      obtain ⟨a, ha, hst⟩ := h2 aid hm
      simp only [ha]
      rcases hst with h | h <;> simp [h]

theorem advance_eq_of_can (s : SwarmState) (now : ℕ) (w w' : Wave)
    (hw : s.waves.lookup s.current_wave = some w)
    (hw' : s.waves.lookup (s.current_wave + 1) = some w')
    (hcan : can_advance_wave s = true) :
    advance s now =
      (spawn_wave_agents
        { s with
          current_wave := s.current_wave + 1
          waves := setWave (setWave s.waves (s.current_wave + 1)
              { w' with status := "running", started_at := some now })
            s.current_wave
            { w with status := "completed", completed_at := some now } }
        (s.current_wave + 1), true) := by
  unfold advance advance_wave
  rw [if_neg (by simp [hcan])]
  simp only [hw']
  rw [lookup_setWave_ne _ _ _ _ (by omega)]
  simp only [hw]
  simp

end Waves

namespace Waves

/-- C2: for every swarm state whose waves map holds the current wave
and its successor, `advance()` succeeds exactly when
`current_wave < total_waves` and every agent of the current wave has
status `completed` or `succeeded`; on success it marks the current
wave `completed` with a `completed_at` timestamp, increments
`current_wave`, marks the new wave `running` with a `started_at`
timestamp, and every agent of the new wave at `current_generation = 0`
gets generation 1 spawned (its registry record becomes
`running`/generation 1 and the generation-1 `status.json` write is
journalled); on failure the state is unchanged.  In particular a wave
`W > 1` transitions to `running` only in the same step that marks
wave `W-1` `completed`, after all of `W-1`'s agents finished. -/
theorem C2_wave_barrier (s : SwarmState) (now : ℕ) (w w' : Wave)
    (hw : s.waves.lookup s.current_wave = some w)
    (hw' : s.waves.lookup (s.current_wave + 1) = some w') :
    ((advance s now).2 = true ↔
      s.current_wave < s.total_waves ∧
        ∀ aid ∈ w.agents, ∃ a, s.agents.lookup aid = some a ∧
          (a.status = "completed" ∨ a.status = "succeeded")) ∧
    ((advance s now).2 = true →
      (advance s now).1.current_wave = s.current_wave + 1 ∧
      (advance s now).1.waves.lookup s.current_wave =
        some { w with status := "completed", completed_at := some now } ∧
      (advance s now).1.waves.lookup (s.current_wave + 1) =
        some { w' with status := "running", started_at := some now } ∧
      (∀ aid ∈ w'.agents, ∀ a : Agent, s.agents.lookup aid = some a →
        a.current_generation = 0 →
        (advance s now).1.agents.lookup aid =
          some { a with status := "running", current_generation := 1 } ∧
        (aid, 1) ∈ (advance s now).1.spawned)) ∧
    ((advance s now).2 = false → (advance s now).1 = s) := by
  refine ⟨by rw [advance_snd]; exact can_advance_iff s w hw, ?_, ?_⟩
  · intro h2
    have hcan : can_advance_wave s = true := by rw [← advance_snd s now]; exact h2
    have hadv := advance_eq_of_can s now w w' hw hw' hcan
    set wrun : Wave := { w' with status := "running", started_at := some now } with hwrun
    set wcomp : Wave := { w with status := "completed", completed_at := some now } with hwcomp
    set s₂ : SwarmState :=
      { s with
        current_wave := s.current_wave + 1
        waves := setWave (setWave s.waves (s.current_wave + 1) wrun) s.current_wave wcomp }
      with hs₂
    have hlk1 : s₂.waves.lookup s.current_wave = some wcomp := by
      apply lookup_setWave_self
      rw [lookup_setWave_ne _ _ _ _ (by omega)]
      exact hw
    have hlk2 : s₂.waves.lookup (s.current_wave + 1) = some wrun := by
      rw [hs₂]
      show (setWave (setWave s.waves (s.current_wave + 1) wrun) s.current_wave wcomp).lookup
        (s.current_wave + 1) = some wrun
      rw [lookup_setWave_ne _ _ _ _ (by omega)]
      exact lookup_setWave_self _ _ _ _ hw'
    have hspawn : spawn_wave_agents s₂ (s.current_wave + 1) =
        w'.agents.foldl spawnStep s₂ := by
      unfold spawn_wave_agents
      rw [hlk2]
      rfl
    refine ⟨?_, ?_, ?_, ?_⟩
    · rw [hadv]
      show (spawn_wave_agents s₂ (s.current_wave + 1)).current_wave = s.current_wave + 1
      rw [hspawn, spawnFold_current_wave]
    · rw [hadv]
      show (spawn_wave_agents s₂ (s.current_wave + 1)).waves.lookup s.current_wave = some wcomp
      rw [hspawn, spawnFold_waves]
      exact hlk1
    · rw [hadv]
      show (spawn_wave_agents s₂ (s.current_wave + 1)).waves.lookup (s.current_wave + 1) =
        some wrun
      rw [hspawn, spawnFold_waves]
      exact hlk2
    · intro aid hm a ha hg
      rw [hadv]
      constructor
      · show (spawn_wave_agents s₂ (s.current_wave + 1)).agents.lookup aid = _
        rw [hspawn]
        have ha₂ : s₂.agents.lookup aid = some a := ha
        rw [spawnFold_lookup w'.agents s₂ aid a ha₂, if_pos ⟨hm, hg⟩]
      · show (aid, 1) ∈ (spawn_wave_agents s₂ (s.current_wave + 1)).spawned
        rw [hspawn]
        exact spawnFold_spawned_mem w'.agents s₂ aid a hm ha hg
  · intro h2
    have hcan : can_advance_wave s = false := by rw [← advance_snd s now]; exact h2
    unfold advance advance_wave
    rw [if_pos (by simp [hcan])]
    simp

/-- C2 (witness): the spec's wave-barrier scenario on a concrete
two-wave swarm — with wave 1's only agent completed, `advance`
succeeds, moves to wave 2 and spawns generation 1 for its pending
agent. -/
theorem C2_wave_barrier_witness :
    (advance exState 9).2 = true ∧ (advance exState 9).1.current_wave = 2 ∧
    (advance exState 9).1.agents.lookup "a2" =
      some { status := "running", current_generation := 1 } ∧
    ("a2", 1) ∈ (advance exState 9).1.spawned := by
  have h := C2_wave_barrier exState 9
    { status := "running", started_at := some 0, agents := ["a1"] }
    { agents := ["a2"] } rfl rfl
  have h2 : (advance exState 9).2 = true := by
    apply h.1.mpr
    refine ⟨by decide, fun aid hm => ?_⟩
    have : aid = "a1" := by simpa using hm
    subst this
    exact ⟨{ status := "completed", current_generation := 1 }, rfl, Or.inl rfl⟩
  obtain ⟨hcw, -, -, hag⟩ := h.2.1 h2
  have := hag "a2" (by simp) { status := "pending", current_generation := 0 } rfl rfl
  exact ⟨h2, hcw, this.1, this.2⟩

end Waves

namespace OutParse

/-- The timestamp step never changes the `errors` field. -/
theorem errors_tsStep (r : ParsedOutput) (e : Json) : (tsStep r e).errors = r.errors := by
  simp only [tsStep]
  repeat' split
  all_goals rfl

/-- The type counters never change the `errors` field. -/
theorem errors_typeCountStep (r : ParsedOutput) (e : Json) :
    (typeCountStep r e).errors = r.errors := by
  simp only [typeCountStep]
  repeat' split
  all_goals rfl

/-- The `TodoWrite` step never changes the `errors` field. -/
theorem errors_todoStep (r : ParsedOutput) (inp : Json) :
    (todoStep r inp).errors = r.errors := by
  simp only [todoStep]
  repeat' split
  all_goals rfl

/-- The per-tool loop body never changes the `errors` field. -/
theorem errors_processTool (r : ParsedOutput) (name : String) (input : Option Json) :
    (processTool r name input).errors = r.errors := by
  simp only [processTool]
  repeat' split
  all_goals first | rfl | rw [errors_todoStep]

/-- Folding the per-tool loop over a tool list never changes `errors`. -/
theorem errors_foldTools (tools : List (String × Option Json)) :
    ∀ r : ParsedOutput,
      (tools.foldl (fun r nt => processTool r nt.1 nt.2) r).errors = r.errors := by
  induction tools with
  | nil => intro r; rfl
  | cons t ts ih =>
    intro r
    rw [List.foldl_cons, ih, errors_processTool]

/-- The single-tool fallback never changes the `errors` field. -/
theorem errors_fallbackStep (r : ParsedOutput) (e : Json) :
    (fallbackStep r e).errors = r.errors := by
  simp only [fallbackStep]
  repeat' split
  all_goals rfl

/-- The completion-marker step never changes the `errors` field. -/
theorem errors_markerStep (r : ParsedOutput) (e : Json) :
    (markerStep r e).errors = r.errors := by
  simp only [markerStep]
  split
  all_goals rfl

/-- Everything `parse_output_content` does before the error check
leaves the `errors` field untouched. -/
theorem errors_processEventCore (r : ParsedOutput) (e : Json) :
    (processEventCore r e).errors = r.errors := by
  simp only [processEventCore]
  rw [errors_markerStep]
  split
  · rw [errors_fallbackStep, errors_foldTools, errors_typeCountStep, errors_tsStep]
  · rw [errors_foldTools, errors_typeCountStep, errors_tsStep]

/-- Explicit description of what the error branch does to `errors`. -/
theorem errStep_errors (r : ParsedOutput) (e : Json) :
    (errStep r e).errors =
      if ((match e.get "type" with
           | some (.str s) => s == "error"
           | _ => false)
          || (match e.get "is_error" with
              | some v => v.truthy
              | none => false)) = true then
        match (match e.get "message" with
               | some v => v
               | none =>
                 match e.get "content" with
                 | some v => v
                 | none => Json.str (pyRepr e)) with
        | Json.str s =>
          if s.length < 200 then r.errors ++ [strTake s 200] else r.errors
        | _ => r.errors
      else r.errors := by
  simp only [errStep]
  repeat' split
  all_goals try simp_all
  all_goals omega

/-- Taking at least a string's length of characters returns it whole. -/
theorem strTake_of_le (s : String) (n : ℕ) (h : s.length ≤ n) : strTake s n = s := by
  unfold strTake
  rw [List.take_of_length_le h]

end OutParse

namespace OutParse

set_option maxRecDepth 40000 in
/-- C9, counterexample: the spec says an error event pushes its
message truncated to at most 200 characters regardless of its length,
but for an error event whose message has exactly 200 characters the
parser records no error at all: the source guards the append with
`len(error_msg) < 200`, so the `[:200]` slice never truncates and
messages of 200 or more characters are dropped. -/
theorem C9_error_counterexample :
    errMsg200.length = 200 ∧
    exError200.get "type" = some (Json.str "error") ∧
    exError200.get "message" = some (Json.str errMsg200) ∧
    (parse_output_content [exError200] none).errors = [] := by
  refine ⟨by decide, rfl, rfl, by decide⟩

/-- C9, amended: for every truthy event whose `type` is `"error"` or
whose `is_error` field is truthy, the parser takes
`event.get("message", event.get("content", str(event)))` and, when it
is a string of fewer than 200 characters, appends it verbatim to
`errors`; a string message of 200 or more characters is dropped
entirely (not truncated), and a non-string message is ignored. -/
theorem C9_error_amended (r : ParsedOutput) (event : Json)
    (ht : event.truthy = true)
    (herr : ((match event.get "type" with
              | some (.str s) => s == "error"
              | _ => false)
             || (match event.get "is_error" with
                 | some v => v.truthy
                 | none => false)) = true) :
    (processEvent r event).errors =
      match (match event.get "message" with
             | some v => v
             | none =>
               match event.get "content" with
               | some v => v
               | none => Json.str (pyRepr event)) with
      | Json.str s => if s.length < 200 then r.errors ++ [s] else r.errors
      | _ => r.errors := by
  have hcore := errors_processEventCore r event
  unfold processEvent
  rw [if_neg (by simp [ht])]
  rw [errStep_errors, if_pos herr, hcore]
  generalize (match event.get "message" with
              | some v => v
              | none =>
                match event.get "content" with
                | some v => v
                | none => Json.str (pyRepr event)) = m
  cases m with
  | str s =>
    show (if s.length < 200 then r.errors ++ [strTake s 200] else r.errors)
       = (if s.length < 200 then r.errors ++ [s] else r.errors)
    by_cases h : s.length < 200
    · rw [if_pos h, if_pos h, strTake_of_le s 200 (Nat.le_of_lt h)]
    · rw [if_neg h, if_neg h]
  | null => rfl
  | bool b => rfl
  | num q => rfl
  | arr l => rfl
  | obj fs => rfl

/-- Witness for C9: processing the error event with message `"boom"`
appends `"boom"` verbatim to an empty `errors` list. -/
theorem C9_error_witness :
    exErrorShort.truthy = true ∧
    (processEvent ({} : ParsedOutput) exErrorShort).errors = ["boom"] := by
  refine ⟨rfl, ?_⟩
  have h := C9_error_amended ({} : ParsedOutput) exErrorShort rfl (by decide)
  rw [h]
  decide

end OutParse
